import Mathlib

/-!
# Verification of the scratchcommunication cloud-socket transport and request layer

Shallow embedding of the parts of the `scratchcommunication` Python package that the
claims under scrutiny are about:

* the numeric codec of `cloud_socket.py` (`chars`, `char_to_idx`, `CloudSocket._encode`,
  `CloudSocket._decode`),
* the symmetric cipher of `security.py` (`SymmetricEncryption.encrypt` / `.decrypt`,
  `bin_xor`), with the AES-ECB block primitive (an external library call in the source)
  taken as a function parameter,
* the inbound packet state machine `CloudSocket.listen.on_packet` and the outbound
  send path `CloudSocket.send_to_client` / `secure_send_to_client`,
* the request layer of `cloudrequests/requests.py` (`RequestHandler.request`,
  `add_request`, `process_request`, `dispatch_request`, `execute_request`,
  `type_casting`, `parse_normal_request`).

Python strings are modelled as `List Char`; Python `int` as `Int`; wall-clock instants
and the wire salts (hundredths of seconds) as `Rat`.  Fallible operations return
`Except`.  Python exception semantics matter throughout: an uncaught exception aborts
the handler but earlier attribute mutations persist, so the state-machine embeddings
return the partially-updated state at the point of failure.
-/

set_option maxRecDepth 8192
set_option maxHeartbeats 1600000
set_option linter.unusedVariables false

attribute [local semireducible] Rat.add

deriving instance DecidableEq for Except

/-! ## Python semantics helpers -/

/-- Characters Python `str.strip()` and `int(str)` treat as whitespace
(the ASCII ones; the source never feeds other whitespace to them). -/
def pyIsSpace (c : Char) : Bool :=
  c = ' ' ∨ c = '\t' ∨ c = '\n' ∨ c = '\r' ∨ c = '\x0b' ∨ c = '\x0c'

/-- Accumulating helper for `digitsVal`. -/
def digitsValAux : Nat → List Char → Option Nat
  | acc, [] => some acc
  | acc, c :: cs =>
    if c.isDigit then digitsValAux (acc * 10 + (c.toNat - '0'.toNat)) cs else none

/-- Digit list to value, most significant first; `none` on a non-digit or empty list. -/
def digitsVal : List Char → Option Nat
  | [] => none
  | ds => digitsValAux 0 ds

/-- The whitespace stripping Python `int(str)` performs. -/
def pyStrip (s : List Char) : List Char :=
  (s.dropWhile pyIsSpace).reverse.dropWhile pyIsSpace |>.reverse

/-- Python `int(s)` on a string: strips surrounding whitespace, accepts one optional
sign, then a non-empty run of decimal digits; anything else raises `ValueError`
(modelled as `Except.error ()`).  This is what the source applies to digit substrings
of cloud values. -/
def pyInt (s : List Char) : Except Unit Int :=
  match pyStrip s with
  | '-' :: ds => match digitsVal ds with
    | some n => .ok (-(n : Int))
    | none => .error ()
  | '+' :: ds => match digitsVal ds with
    | some n => .ok (n : Int)
    | none => .error ()
  | ds => match digitsVal ds with
    | some n => .ok (n : Int)
    | none => .error ()

/-- Python sequence indexing `xs[i]` with negative indices counting from the end;
`none` models `IndexError`. -/
def pyGet (xs : List Char) (i : Int) : Option Char :=
  if 0 ≤ i then xs.get? i.toNat
  else if 0 ≤ (xs.length : Int) + i then xs.get? ((xs.length : Int) + i).toNat
  else none

/-- Python slice `s[a:]` (lenient). -/
def pyDrop (s : List Char) (n : Nat) : List Char := s.drop n

/-- Python slice `s[:a]` (lenient). -/
def pyTake (s : List Char) (n : Nat) : List Char := s.take n

/-- Python slice `s[:-n]` for `n > 0`: all but the last `n` characters (lenient). -/
def pyDropLast (s : List Char) (n : Nat) : List Char := s.take (s.length - n)

/-- Python slice `s[-n:]` for `n > 0`: the last `n` characters (lenient). -/
def pyTakeLast (s : List Char) (n : Nat) : List Char := s.drop (s.length - n)

/-- Fueled helper for `natDigits`; the fuel only serves structural recursion and
never runs out when it starts above the value (see `natDigitsAux_fuel`). -/
def natDigitsAux : Nat → Nat → List Char
  | 0, _ => []
  | fuel + 1, n =>
    if n < 10 then [Nat.digitChar n]
    else natDigitsAux fuel (n / 10) ++ [Nat.digitChar (n % 10)]

/-- Decimal digits of a natural number, most significant first, as Python `str`
prints it. -/
def natDigits (n : Nat) : List Char := natDigitsAux (n + 1) n

/-- Decimal representation of a Python integer, as `str(n)` prints it. -/
def pyStrOfInt (n : Int) : List Char :=
  if n < 0 then '-' :: natDigits n.natAbs else natDigits n.natAbs

/-- `str.endswith`: `suf` is a suffix of `s`. -/
def pyEndsWith (s suf : List Char) : Bool :=
  decide (suf.length ≤ s.length) && (s.drop (s.length - suf.length) == suf)

/-- `str.removesuffix`. -/
def pyRemoveSuffix (s suf : List Char) : List Char :=
  if pyEndsWith s suf then s.take (s.length - suf.length) else s

/-- Split at the first occurrence of `sep`; `none` when `sep` does not occur.
Building block for Python `str.split(sep, maxsplit)`. -/
def splitOnceAt (sep : Char) : List Char → Option (List Char × List Char)
  | [] => none
  | c :: cs =>
    if c = sep then some ([], cs)
    else (splitOnceAt sep cs).map (fun p => (c :: p.1, p.2))

/-- Python `s.split(sep, 2)` unpacked into exactly three parts, as
`seed, message_length, encrypted = data.split(":", 2)` does; `none` models the
`ValueError` raised when fewer than two separators occur. -/
def split2At (sep : Char) (s : List Char) : Option (List Char × List Char × List Char) :=
  (splitOnceAt sep s).bind fun p =>
    (splitOnceAt sep p.2).map fun q => (p.1, q.1, q.2)

/-- Fueled helper for `batchedList`; with `n ≥ 1` each step drops at least one
element, so fuel `xs.length` never runs out. -/
def batchedAux (n : Nat) : Nat → List α → List (List α)
  | _, [] => []
  | 0, _ :: _ => []
  | fuel + 1, x :: xs => (x :: xs).take n :: batchedAux n fuel ((x :: xs).drop n)

/-- `itertools.batched(xs, n)` / the `batched` helper of `cloud_socket.py`
(lines 25–31): consecutive groups of `n`, the last one possibly shorter.  The source
raises for `n < 1`; no caller passes such an `n`. -/
def batchedList (n : Nat) (xs : List α) : List (List α) := batchedAux n xs.length xs

/-! ## The codec of `cloud_socket.py` (lines 20–23, 415–441)

`alphabet = "abcdefghijklmnopqrstuvwxyz"`,
`special_characters = " .,-:;_'#!\"§$%&/()=?{[]}\\0123456789<>ß*"`,
`chars = alphabet + alphabet.upper() + special_characters`.
`security.py` lines 14–16 define the identical `chars` string, so one definition
serves both files. -/

def alphabet : List Char := "abcdefghijklmnopqrstuvwxyz".data

def specialCharacters : List Char := " .,-:;_'#!\"§$%&/()=?{[]}\\0123456789<>ß*".data

def chars : List Char := alphabet ++ alphabet.map Char.toUpper ++ specialCharacters

/-- `char_to_idx` of `cloud_socket.py` line 23: each character of `chars` maps to the
decimal string of its 1-based position, left-padded with one `0` when it has a single
digit.  The source builds a dict by enumeration; since `chars` has no duplicate
(proved in `chars_nodup`), first-position lookup agrees with the dict. -/
def charToIdxCode (c : Char) : Option (List Char) :=
  (chars.indexOf? c).map fun i =>
    let s := natDigits (i + 1)
    if s.length > 1 then s else '0' :: s

/-- One character of `CloudSocket._encode` (lines 436–441): the `char_to_idx` code,
with `KeyError` on an unknown character falling back to the code of `?`. -/
def encodeChar (c : Char) : List Char :=
  match charToIdxCode c with
  | some s => s
  | none => (charToIdxCode '?').getD []

/-- `CloudSocket._encode` (lines 430–441): a leading `1`, then the two-digit code of
each character, accumulated left to right. -/
def cloudEncode (data : List Char) : List Char :=
  data.foldl (fun acc c => acc ++ encodeChar c) ['1']

/-- The digit-pair loop of `CloudSocket._decode` (lines 420–428):
`zip(data[::2], data[1::2])` walks consecutive pairs, dropping an odd trailing digit;
`int(pair) - 1` indexes `chars` with Python semantics (so a `00` pair hits index `-1`,
the last character); an `IndexError` skips the pair with a warning; a `ValueError`
from `int` propagates out of `_decode` (modelled as `Except.error`). -/
def decodePairs : List Char → Except Unit (List Char)
  | d0 :: d1 :: rest => do
    let n ← pyInt [d0, d1]
    let tail ← decodePairs rest
    match pyGet chars (n - 1) with
    | some c => pure (c :: tail)
    | none => pure tail
  | _ => .ok []

/-- `CloudSocket._decode` (lines 415–428). -/
def cloudDecode (data : List Char) : Except Unit (List Char) :=
  decodePairs data

/-! ## The symmetric cipher of `security.py` (lines 172–217)

`SymmetricEncryption` holds `key : int` and `hashed_key : bytes` (the first 16 bytes
of SHA-256 of the last 53 bytes of `str(key)`; SHA-256 is an external library call,
so the embedding takes `hashedKey` — an arbitrary byte list — as the state).  The
AES-ECB block primitive `AES.new(k, AES.MODE_ECB).encrypt(aes_pass.to_bytes(16))`
is likewise external (pycryptodome); the embedding abstracts it as a parameter
`f : List Nat → Nat → List Nat` mapping the key bytes and the block counter to the
block's byte list (always 16 bytes for real AES). -/

/-- `security.py` line 17: the 0-based `char_to_idx` of the cipher alphabet. -/
def secCharToIdx (c : Char) : Option Nat := chars.indexOf? c

/-- `bin_xor` (`security.py` lines 215–217): pair the decimal digits of `number`
into 1–2 digit bytes, XOR them into the front of `__bytes`, and keep the unpaired
tail of `__bytes`.  The digit groups always parse, so `int("".join(a))` is total
here. -/
def binXor (bs : List Nat) (number : Nat) : List Nat :=
  let byteList := (batchedList 2 (natDigits number)).map (fun g => (digitsVal g).getD 0)
  let fp := List.zipWith (fun a b => a ^^^ b) bs byteList
  fp ++ bs.drop fp.length

/-- The plaintext pad appended by `SymmetricEncryption.encrypt` (line 187). -/
def endMarker : List Char := "ITSTHEENDOFTHIS".data

/-- The shift-buffer refill shared by both cipher loops (`if not shifts: aes_pass
+= 1; shifts = list(aes.encrypt(aes_pass.to_bytes(16)))` of lines 189–191 and
205–207). -/
def refill (f : List Nat → Nat → List Nat) (k : List Nat) (aesPass : Nat)
    (shifts : List Nat) : Nat × List Nat :=
  if shifts.isEmpty then (aesPass + 1, f k (aesPass + 1)) else (aesPass, shifts)

/-- The character loop of `SymmetricEncryption.encrypt` (lines 188–193): state is
`(aes_pass, shifts)`; an empty shift buffer is refilled from the next AES block;
each character is shifted forward through the alphabet.  `Except.error` models the
`KeyError` on a plaintext character outside the alphabet and the (unreachable for
real AES) `IndexError` when a block is empty. -/
def encLoop (f : List Nat → Nat → List Nat) (k : List Nat) :
    List Char → Nat → List Nat → Except Unit (List Char)
  | [], _, _ => .ok []
  | c :: cs, aesPass, shifts =>
    match refill f k aesPass shifts with
    | (_, []) => .error ()
    | (p, s :: srest) =>
      match chars.indexOf? c with
      | none => .error ()
      | some idx =>
        (encLoop f k cs p srest).map
          (chars.getD ((idx + s) % chars.length) '*' :: ·)

/-- The character loop of `SymmetricEncryption.decrypt` (lines 202–209): identical
keystream, characters shifted backward (Python `%` on a negative value yields the
non-negative representative, hence the `Int.emod`/`toNat` round). -/
def decLoop (f : List Nat → Nat → List Nat) (k : List Nat) :
    List Char → Nat → List Nat → Except Unit (List Char)
  | [], _, _ => .ok []
  | c :: cs, aesPass, shifts =>
    match refill f k aesPass shifts with
    | (_, []) => .error ()
    | (p, s :: srest) =>
      match chars.indexOf? c with
      | none => .error ()
      | some idx =>
        (decLoop f k cs p srest).map
          (chars.getD (((idx : Int) - (s : Int)) % (chars.length : Int)).toNat '*' :: ·)

/-- `SymmetricEncryption.encrypt` (lines 181–194): cleartext header
`"{seed}:{len(data)}:"` (the 4-digit `seed` is drawn randomly in the source and is a
parameter here), then the padded plaintext enciphered with the keystream keyed by
`bin_xor(hashed_key, salt)`. -/
def symEncrypt (f : List Nat → Nat → List Nat) (hashedKey : List Nat) (seed : Nat)
    (data : List Char) (salt : Nat) : Except Unit (List Char) :=
  let header := natDigits seed ++ [':'] ++ natDigits data.length ++ [':']
  let k := binXor hashedKey salt
  (encLoop f k (data ++ endMarker) 0 []).map (header ++ ·)

/-- `SymmetricEncryption.decrypt` (lines 196–213): split the header off at the first
two `:`, decipher the body with the same keystream, and fail with `ValueError`
(`"Bad message"`) unless the result ends in the pad and matches the declared
length. -/
def symDecrypt (f : List Nat → Nat → List Nat) (hashedKey : List Nat)
    (data : List Char) (salt : Nat) : Except Unit (List Char) :=
  match split2At ':' data with
  | none => .error ()
  | some (seedStr, lenStr, encrypted) => do
    let _seed ← pyInt seedStr
    let messageLength ← pyInt lenStr
    let k := binXor hashedKey salt
    let decrypted ← decLoop f k encrypted 0 []
    if pyEndsWith decrypted endMarker ∧
        messageLength + (endMarker.length : Int) = (decrypted.length : Int) then
      pure (pyRemoveSuffix decrypted endMarker)
    else
      .error ()

/-- A concrete stand-in for the AES block primitive, used only to instantiate
witness statements: a constant 16-byte block. -/
def aesConstBlock : List Nat → Nat → List Nat :=
  fun _ _ => [3, 1, 4, 1, 5, 9, 2, 6, 5, 3, 5, 8, 9, 7, 9, 3]

/-- A concrete 16-byte hashed key for witness statements. -/
def hkConst : List Nat := [7, 7, 7, 7, 0, 1, 2, 3, 4, 5, 6, 7, 8, 9, 10, 11]

/-! ## The cloud-socket state machine (`cloud_socket.py` lines 242–377, 522–573)

The mutable state a `CloudSocket` carries (`clients`, `key_parts`, `last_timestamp`,
`new_clients` and the threading events) and the `on_packet` handler installed by
`listen`.  Python dicts are insertion-ordered association lists here.  The
`SymmetricEncryption` object held by a secure client and the `_decrypt_key` closure
of the configured key exchange are modelled as function fields (their internals are
the subject of the cipher section and of external primitives respectively).  Wall
clock instants are `Rat`; `on_packet` receives the `time.time()` value it would
observe as `now`.

Python exception discipline, which the theorems depend on: the whole handler body
sits in `try: ... except AssertionError: pass`, and the event dispatcher that calls
it catches every other exception too (`cloud.py` lines 465–473) — so a failure stops
processing but keeps every attribute mutation already performed.  The embedding
returns the partially-updated state at each failure point for exactly this reason. -/

/-- Association-list lookup (Python dict access). -/
def dictGet (d : List (List Char × V)) (k : List Char) : Option V :=
  (d.find? (fun p => p.1 == k)).map Prod.snd

/-- Association-list update: replace in place when the key exists (Python dicts keep
the original insertion position), append otherwise. -/
def dictSet (d : List (List Char × V)) (k : List Char) (v : V) : List (List Char × V) :=
  if (d.find? (fun p => p.1 == k)).isSome then
    d.map (fun p => if p.1 == k then (k, v) else p)
  else d ++ [(k, v)]

/-- A `CloudSocketMSG` (lines 556–573): accumulated text and the `complete` flag. -/
structure CloudMsg where
  message : List Char
  complete : Bool
deriving Repr

/-- The two halves of a client's `SymmetricEncryption` object, as closures (the
internals are proved in the cipher section; the hashed key inside depends on the
external SHA-256). -/
structure EncObj where
  enc : List Char → Int → Except Unit (List Char)
  dec : List Char → Int → Except Unit (List Char)

/-- A `CloudSocketConnection` (lines 522–554), restricted to the fields `on_packet`
and the send path read or write.  The `event` back-reference is not modelled: no
claim observes it. -/
structure ClientState where
  secure : Bool
  encrypter : Option EncObj
  currentMsg : CloudMsg
  newMsgs : List CloudMsg
  received : Bool
  username : Option (List Char)
  securityStr : Option (List Char)
  isTurbowarp : Bool

/-- The mutable `CloudSocket` state (lines 263–273). -/
structure SocketState where
  clients : List (List Char × ClientState)
  keyParts : List (List Char × List Char)
  lastTimestamp : Rat
  newClients : List (List Char × Option (List Char))
  security : Option (List Char → Except Unit Int)
  accepted : Bool
  receivedAny : Bool
  anyUpdate : Bool

/-- Events `on_packet` emits on the bus, in order. -/
inductive BusEvent
  | nonSecureMessagePart (client : List Char) (decoded : List Char)
  | nonSecureMessage (client : List Char) (content : List Char)
  | secureMessagePart (client : List Char) (decoded : List Char)
  | secureMessage (client : List Char) (content : List Char)
  | newUser (client : List Char)
  | newSecureUser (client : List Char)

/-- `value.split(".", 1)[0]`: the part before the first dot, or the whole string. -/
def beforeFirstDot (value : List Char) : List Char :=
  match splitOnceAt '.' value with
  | some p => p.1
  | none => value

/-- The new-user tail of `on_packet` (lines 355–375): build a
`CloudSocketConnection` whose `security` string is `str(key)` when a key was
recovered, register it, announce it.  `mkEnc` models the `sec.SymmetricEncryption`
constructor; `username` is `event.user`, already `None` when the connection cannot
serve it (`except NotSupported`). -/
def newUserStep (mkEnc : Int → EncObj) (isTw : Bool) (st : SocketState)
    (client : List Char) (username : Option (List Char)) (key : Option Int) :
    SocketState × List BusEvent :=
  let securityStr := key.map pyStrOfInt
  let secure := securityStr.isSome
  let cl : ClientState :=
    { secure := secure
      encrypter := key.map mkEnc
      currentMsg := ⟨[], false⟩
      newMsgs := []
      received := false
      username := username
      securityStr := securityStr
      isTurbowarp := isTw }
  ({ st with
      clients := dictSet st.clients client cl
      newClients := st.newClients ++ [(client, username)]
      accepted := true
      anyUpdate := true },
    BusEvent.newUser client :: (if secure then [BusEvent.newSecureUser client] else []))

/-- The `_safe_connect` branch of `on_packet` (lines 340–353) followed by the
new-user tail; reached when the decoded 28-digit prefix starts with
`_safe_connect:`.  Note the watermark `last_timestamp` is updated before the
fragment lookup and the key/salt binding check, so a failure there keeps the
advanced watermark (the source mutates, then raises, and the exception is
swallowed). -/
def safeConnectStep (mkEnc : Int → EncObj) (isTw : Bool) (st : SocketState)
    (now : Rat) (client : List Char) (username : Option (List Char))
    (msgData : List Char) : SocketState × List BusEvent :=
  match st.security with
  | none => (st, [])
  | some decKey =>
    match pyInt (pyTakeLast msgData 15) with
    | .error _ => (st, [])
    | .ok saltInt =>
      let salt : Rat := mkRat saltInt 100
      if ¬(st.lastTimestamp < salt) then (st, [])
      else if ¬(salt < now + 30) then (st, [])
      else
        let st1 := { st with lastTimestamp := salt }
        let groups := batchedList 5 ((pyDropLast msgData 15).drop 28)
        match groups.mapM (fun g => dictGet st1.keyParts g) with
        | none => (st1, [])
        | some parts =>
          let cKey := parts.flatten
          match decKey cKey with
          | .error _ => (st1, [])
          | .ok key =>
            let keyStr := pyStrOfInt key
            let saltStr := pyStrOfInt saltInt
            if pyEndsWith keyStr saltStr ∨ saltStr.isPrefixOf keyStr then
              newUserStep mkEnc isTw st1 client username (some key)
            else (st1, [])

/-- The non-secure message branch of `on_packet` (lines 304–316).  The full-payload
decode is evaluated as an emit argument before any mutation, so its `ValueError`
leaves the state untouched; the `assert not "-" in event_value` sits after
`current_msg.add`, which is how continuation packets accumulate. -/
def nonSecureMsgStep (st : SocketState) (client : List Char) (cl : ClientState)
    (msgData eventValue : List Char) : SocketState × List BusEvent :=
  match cloudDecode msgData with
  | .error _ => (st, [])
  | .ok decodedFull =>
    let ev1 := [BusEvent.nonSecureMessagePart client decodedFull]
    let cl1 := { cl with currentMsg :=
      { cl.currentMsg with message := cl.currentMsg.message ++ msgData } }
    let st1 := { st with clients := dictSet st.clients client cl1 }
    if '-' ∈ eventValue then (st1, ev1)
    else
      match cloudDecode cl1.currentMsg.message with
      | .error _ => (st1, ev1)
      | .ok m' =>
        let fin : CloudMsg := ⟨m', true⟩
        let cl2 := { cl1 with
          currentMsg := ⟨[], false⟩
          newMsgs := cl1.newMsgs ++ [fin]
          received := true }
        ({ st with
            clients := dictSet st.clients client cl2
            receivedAny := true
            anyUpdate := true },
          ev1 ++ [BusEvent.nonSecureMessage client m'])

/-- The secure message branch of `on_packet` (lines 320–336): salt validation
against the watermark and the 30-second window, then decrypt and accumulate. -/
def secureMsgStep (st : SocketState) (now : Rat) (client : List Char)
    (cl : ClientState) (msgData eventValue : List Char) : SocketState × List BusEvent :=
  match pyInt (pyTakeLast msgData 15) with
  | .error _ => (st, [])
  | .ok saltInt =>
    let salt : Rat := mkRat saltInt 100
    if ¬(st.lastTimestamp < salt) then (st, [])
    else if ¬(salt < now + 30) then (st, [])
    else
      match cl.encrypter with
      | none => (st, [])
      | some encObj =>
        let st1 := { st with lastTimestamp := salt }
        match cloudDecode (pyDropLast msgData 15) with
        | .error _ => (st1, [])
        | .ok ctext =>
          match encObj.dec ctext saltInt with
          | .error _ => (st1, [])
          | .ok decoded =>
            let cl1 := { cl with currentMsg :=
              { cl.currentMsg with message := cl.currentMsg.message ++ decoded } }
            let st2 := { st1 with clients := dictSet st1.clients client cl1 }
            let ev1 := [BusEvent.secureMessagePart client decoded]
            if '-' ∈ eventValue then (st2, ev1)
            else
              let fin : CloudMsg := ⟨cl1.currentMsg.message, true⟩
              let cl2 := { cl1 with
                currentMsg := ⟨[], false⟩
                newMsgs := cl1.newMsgs ++ [fin]
                received := true }
              ({ st1 with
                  clients := dictSet st1.clients client cl2
                  receivedAny := true
                  anyUpdate := true },
                ev1 ++ [BusEvent.secureMessage client fin.message])

/-- The `on_packet` handler of `CloudSocket.listen` (lines 280–377), one inbound
`set` event.  Returns the successor state and the bus events emitted.  A failed
assertion or an uncaught exception returns the state accumulated so far (see the
section comment). -/
def onPacket (mkEnc : Int → EncObj) (isTw : Bool) (st : SocketState) (now : Rat)
    (eventType eventName eventValue : List Char) (username : Option (List Char)) :
    SocketState × List BusEvent :=
  if ¬(eventType = "set".data ∧ eventName = "FROM_CLIENT".data) then (st, [])
  else
    let value := eventValue.filter (· ≠ '-')
    let msgData := (beforeFirstDot value).drop 1
    match value with
    | [] => (st, [])
    | v0 :: _ =>
      match pyInt [v0] with
      | .error _ => (st, [])
      | .ok msgType =>
        if msgType = 0 then
          let keyPartId := msgData.take 5
          if (dictGet st.keyParts keyPartId).isSome then (st, [])
          else
            let kp := st.keyParts ++ [(keyPartId, msgData.drop 5)]
            let kp := if kp.length ≥ 100 then kp.drop (kp.length - 100) else kp
            ({ st with keyParts := kp }, [])
        else
          match splitOnceAt '.' value with
          | none => (st, [])
          | some (_, tail) =>
            let client := tail.take 5
            match cloudDecode (msgData.take 28) with
            | .error _ => (st, [])
            | .ok dec28 =>
              let isConn := "_connect".data.isPrefixOf dec28 ∨
                "_safe_connect:".data.isPrefixOf dec28
              match dictGet st.clients client with
              | some cl =>
                if ¬isConn ∧ cl.secure = false then
                  nonSecureMsgStep st client cl msgData eventValue
                else if ¬isConn ∧ cl.secure = true then
                  secureMsgStep st now client cl msgData eventValue
                else if "_safe_connect:".data.isPrefixOf dec28 then
                  safeConnectStep mkEnc isTw st now client username msgData
                else
                  newUserStep mkEnc isTw st client username none
              | none =>
                if "_safe_connect:".data.isPrefixOf dec28 then
                  safeConnectStep mkEnc isTw st now client username msgData
                else
                  newUserStep mkEnc isTw st client username none

/-- One inbound event as a record, for folding traces. -/
structure StepInput where
  now : Rat
  eventType : List Char
  eventName : List Char
  eventValue : List Char
  username : Option (List Char)

/-- Run `on_packet` over a sequence of inbound events. -/
def runPackets (mkEnc : Int → EncObj) (isTw : Bool) (st : SocketState) :
    List StepInput → SocketState
  | [] => st
  | p :: ps =>
    runPackets mkEnc isTw
      (onPacket mkEnc isTw st p.now p.eventType p.eventName p.eventValue p.username).1 ps

/-- The salt a packet carries when it reaches one of the two salt assertions of
`on_packet` (the secure-message branch or the `_safe_connect` branch), mirroring
the branch selection exactly; `none` when the packet never reaches a salt check. -/
def saltedBranchSalt (st : SocketState) (eventType eventName eventValue : List Char) :
    Option Int :=
  if ¬(eventType = "set".data ∧ eventName = "FROM_CLIENT".data) then none
  else
    let value := eventValue.filter (· ≠ '-')
    let msgData := (beforeFirstDot value).drop 1
    match value with
    | [] => none
    | v0 :: _ =>
      match pyInt [v0] with
      | .error _ => none
      | .ok msgType =>
        if msgType = 0 then none
        else
          match splitOnceAt '.' value with
          | none => none
          | some (_, tail) =>
            let client := tail.take 5
            match cloudDecode (msgData.take 28) with
            | .error _ => none
            | .ok dec28 =>
              let isSafe := "_safe_connect:".data.isPrefixOf dec28
              let isConnB := "_connect".data.isPrefixOf dec28 || isSafe
              let inSecureBranch : Bool :=
                match dictGet st.clients client with
                | some cl => !isConnB && cl.secure
                | none => false
              let inSafeBranch : Bool := isSafe && st.security.isSome
              if inSecureBranch || inSafeBranch then
                match pyInt (pyTakeLast msgData 15) with
                | .error _ => none
                | .ok saltInt => some saltInt
              else none

/-! ## The send path (`cloud_socket.py` lines 380–388, 463–504)

`send_to_client` and `secure_send_to_client` produce a sequence of
`client.set_var(name, value)` calls; the embedding returns that sequence.  The
source converts each formatted payload with `int(...)`; the payload always contains
a literal `.`, which `int` rejects. -/

/-- `get_packet_size` (lines 380–388). -/
inductive PacketSizeCfg
  | auto
  | const (n : Nat)

def getPacketSize (cfg : PacketSizeCfg) (cl : ClientState) : Nat :=
  match cfg with
  | .const n => n
  | .auto => if cl.isTurbowarp then 98800 else 220

/-- `f"{random.randrange(1000):03}"`: three-digit zero-padded nonce. -/
def pad3 (n : Nat) : List Char :=
  let s := natDigits n
  List.replicate (3 - s.length) '0' ++ s

/-- `str(salt).zfill(15)`. -/
def zfill15 (s : List Char) : List Char :=
  List.replicate (15 - s.length) '0' ++ s

/-- The continuation-write loop of `send_to_client` (lines 473–479): all packets
but the last, with leading `-`, rotating `TO_CLIENT_{1..4}`, a 3-digit nonce and
the running packet index.  `nonces i` stands for the i-th `random.randrange(1000)`
draw. -/
def sendLoop (clientId : List Char) (nonces : Nat → Nat) :
    List (List Char) → Nat → Nat → Except Unit (List (List Char × Int))
  | [], _, _ => .ok []
  | p :: ps, var, idx => do
    let v ← pyInt (['-'] ++ p ++ ['.'] ++ clientId ++ pad3 (nonces idx) ++ natDigits idx)
    let rest ← sendLoop clientId nonces ps (var % 4 + 1) (idx + 1)
    pure (("TO_CLIENT_".data ++ natDigits var, v) :: rest)

/-- The continuation-write loop of `secure_send_to_client` (lines 490–498):
encrypt with a fresh wall-clock salt per packet (`salts i`), encode, frame with the
15-digit zero-filled salt. -/
def secureSendLoop (encObj : EncObj) (clientId : List Char) (nonces : Nat → Nat)
    (salts : Nat → Int) :
    List (List Char) → Nat → Nat → Except Unit (List (List Char × Int))
  | [], _, _ => .ok []
  | p :: ps, var, idx => do
    let salt := salts idx
    let ep ← encObj.enc p salt
    let encodedPacket := cloudEncode ep
    let v ← pyInt (['-'] ++ encodedPacket ++ zfill15 (pyStrOfInt salt) ++ ['.'] ++
      clientId ++ pad3 (nonces idx) ++ natDigits idx)
    let rest ← secureSendLoop encObj clientId nonces salts ps (var % 4 + 1) (idx + 1)
    pure (("TO_CLIENT_".data ++ natDigits var, v) :: rest)

/-- `CloudSocket.secure_send_to_client` (lines 485–504): packets of
`packet_size // 2 - 28`, each encrypted then encoded, salt appended, one write per
packet with the same continuation framing. -/
def secureSendToClient (client : ClientState) (clientId : List Char)
    (data : List Char) (cfg : PacketSizeCfg) (nonces : Nat → Nat) (lastVar : Nat)
    (salts : Nat → Int) : Except Unit (List (List Char × Int)) :=
  match client.encrypter with
  | none => .error ()
  | some encObj =>
    let packets := batchedList (getPacketSize cfg client / 2 - 28) data
    match packets.getLast? with
    | none => .error ()
    | some lastPacket => do
      let front ← secureSendLoop encObj clientId nonces salts packets.dropLast 1 0
      let n := packets.dropLast.length
      let salt := salts n
      let ep ← encObj.enc lastPacket salt
      let encodedPacket := cloudEncode ep
      let lv ← pyInt (encodedPacket ++ zfill15 (pyStrOfInt salt) ++ ['.'] ++
        clientId ++ pad3 (nonces n) ++ natDigits n)
      pure (front ++ [("TO_CLIENT_".data ++ natDigits lastVar, lv)])

/-- `CloudSocket.send_to_client` (lines 463–483) for a non-secure client: encode,
split into packets of the client's packet size, emit one write per packet; the last
write is non-negative and goes to a random variable `lastVar ∈ {1..4}`
(`random.randint(1, 4)`). -/
def sendToClient (clients : List (List Char × ClientState)) (clientId : List Char)
    (data : List Char) (cfg : PacketSizeCfg) (nonces : Nat → Nat) (lastVar : Nat)
    (salts : Nat → Int) : Except Unit (List (List Char × Int)) :=
  match dictGet clients clientId with
  | none => .error ()
  | some client =>
    if client.secure then
      secureSendToClient client clientId data cfg nonces lastVar salts
    else
      let dataEnc := cloudEncode data
      let packets := batchedList (getPacketSize cfg client) dataEnc
      match packets.getLast? with
      | none => .error ()
      | some lastPacket => do
        let front ← sendLoop clientId nonces packets.dropLast 1 0
        let lv ← pyInt (lastPacket ++ ['.'] ++ clientId ++
          pad3 (nonces packets.dropLast.length) ++ natDigits packets.dropLast.length)
        pure (front ++ [("TO_CLIENT_".data ++ natDigits lastVar, lv)])

/-- A concrete non-secure client for closed statements. -/
def insecureTestClient : ClientState :=
  { secure := false
    encrypter := none
    currentMsg := ⟨[], false⟩
    newMsgs := []
    received := false
    username := none
    securityStr := none
    isTurbowarp := false }

/-- An identity cipher object for closed statements (the theorems quantify over
every `EncObj`). -/
def encObjId : EncObj :=
  { enc := fun d _ => .ok d
    dec := fun d _ => .ok d }

/-- A concrete secure client for closed statements. -/
def secureTestClient : ClientState :=
  { secure := true
    encrypter := some encObjId
    currentMsg := ⟨[], false⟩
    newMsgs := []
    received := false
    username := none
    securityStr := some "1".data
    isTurbowarp := false }

/-- A concrete socket state holding one secure client, for closed statements. -/
def c5St0 : SocketState :=
  { clients := [("12345".data, secureTestClient)]
    keyParts := []
    lastTimestamp := 0
    newClients := []
    security := none
    accepted := false
    receivedAny := false
    anyUpdate := false }

/-- A concrete accepted secure packet (salt `10^14` hundredths, i.e. `10^12` s). -/
def c5Packet : StepInput :=
  { now := 1000000000000
    eventType := "set".data
    eventName := "FROM_CLIENT".data
    eventValue := "2100000000000000.12345".data
    username := none }

/-- A concrete socket state with no clients, for the C10 witness. -/
def c10St0 : SocketState :=
  { clients := []
    keyParts := []
    lastTimestamp := 0
    newClients := []
    security := none
    accepted := false
    receivedAny := false
    anyUpdate := false }

/-! ## The request layer (`cloudrequests/requests.py`, `cloudrequests/basetypes.py`)

Python values carried by requests, handler objects, the registration API, the two
request parsers, `type_casting` and the dispatch pipeline.  Handlers are arbitrary
callables; a handler is a name plus an implementation function returning either a
value or a raised exception.  The observable effects of processing — handler
invocations in order, `send_response` calls, emitted bus events, spawned worker
threads — are collected in a `ReqOutput` record.

A fact the claims hinge on: `dispatch_request` (line 139) computes
`inspect.signature(request_handling_function)` where `request_handling_function` is
the `SpecificRequestHandler` *instance*; that resolves to the signature of its
`__call__`, which is `(*args, **kwargs) -> Any` — and because `basetypes.py` uses
`from __future__ import annotations`, the return annotation is the *string*
`'Any'`, not `typing.Any`.  So the parameters carry no annotations and the return
converter is a non-callable string. -/

/-- Python values that flow through the request layer.  Floats are exact rationals
here (Python's binary floats round; no claim observes the difference). -/
inductive PyObj where
  | str (s : List Char)
  | int (n : Int)
  | float (q : Rat)
  | bool (b : Bool)
  | none
  | list (xs : List PyObj)
  | tuple (xs : List PyObj)
  | dict (xs : List (PyObj × PyObj))

/-- The exceptions the request layer distinguishes. -/
inductive PyExc where
  | typeError
  | valueError
  | keyError
  | indexError
  | assertionError
  | nameError
  | permissionError
  | syntaxError
  | errorMessage (args : List (List Char))
  | other
deriving DecidableEq

/-- `inspect.Parameter` kinds. -/
inductive ParamKind where
  | ps    -- POSITIONAL_ONLY
  | kwps  -- POSITIONAL_OR_KEYWORD
  | kw    -- KEYWORD_ONLY
  | mps   -- VAR_POSITIONAL
  | mkw   -- VAR_KEYWORD
deriving DecidableEq

/-- An annotation as `type_casting` sees it: absent (or `typing.Any`), an
unevaluated string (PEP 563), or a callable, optionally subscripted
(`__args__`). -/
inductive PyAnn where
  | empty
  | strAnn (s : List Char)
  | callable (f : PyObj → Except PyExc PyObj) (argsAttr : Option (List (PyObj → Except PyExc PyObj)))

/-- One signature parameter. -/
structure SigParam where
  name : List Char
  kind : ParamKind
  ann : PyAnn

/-- An `inspect.Signature`. -/
structure PySignature where
  params : List SigParam
  retAnn : PyAnn

/-- A Python function object: its `__name__`, its own signature (annotations as
written by the user), and its behaviour. -/
structure PyFunc where
  name : List Char
  sig : PySignature
  impl : List PyObj → List (PyObj × PyObj) → Except PyExc PyObj

/-- `SpecificRequestHandler` (`basetypes.py` lines 35–44). -/
structure SpecificRequestHandler where
  function : PyFunc
  name : List Char
  autoConvert : Bool
  allowPythonSyntax : Bool
  thread : Bool

/-- `inspect.signature` of a `SpecificRequestHandler` instance: the signature of
its `__call__(self, *args, **kwargs) -> Any`, with the return annotation left as
the string `'Any'` by PEP 563 (`from __future__ import annotations` in
`basetypes.py`). -/
def signatureOfSpecificRequestHandler : PySignature :=
  { params := [ { name := "args".data, kind := .mps, ann := .empty },
                { name := "kwargs".data, kind := .mkw, ann := .empty } ]
    retAnn := .strAnn "Any".data }

/-- `RequestHandler.add_request` (lines 35–40): store the handler under
`name or func.__name__` (a `None` or empty name falls back to the function
name). -/
def addRequest (reqs : List (List Char × SpecificRequestHandler)) (func : PyFunc)
    (name : Option (List Char)) (autoConvert allowPythonSyntax thread : Bool) :
    List (List Char × SpecificRequestHandler) :=
  let hname := match name with
    | some n => if n.isEmpty then func.name else n
    | Option.none => func.name
  dictSet reqs hname
    { function := func
      name := hname
      autoConvert := autoConvert
      allowPythonSyntax := allowPythonSyntax
      thread := thread }

/-- `RequestHandler.request` (lines 26–33).  With `func` given it registers at
once; without, it returns the decorator
`lambda x: self.request(x, name=name, auto_convert=auto_convert,
allow_python_syntax=allow_python_syntax)` — whose call site omits `thread`, so the
decorator registers with the default `thread=False`.  The decorator is modelled as
a function from the decorated function and the then-current request table to the
updated table. -/
def request (reqs : List (List Char × SpecificRequestHandler)) (func : Option PyFunc)
    (name : Option (List Char)) (autoConvert allowPythonSyntax thread : Bool) :
    List (List Char × SpecificRequestHandler) ×
      Option (PyFunc → List (List Char × SpecificRequestHandler) →
        List (List Char × SpecificRequestHandler)) :=
  match func with
  | some f => (addRequest reqs f name autoConvert allowPythonSyntax thread, Option.none)
  | Option.none =>
    (reqs, some (fun x reqs2 => addRequest reqs2 x name autoConvert allowPythonSyntax false))

/-- Calling an annotation on a value (`annotation(arg)` in `type_casting`):
`DO_NOTHING` for an absent annotation, a `TypeError` for a non-callable string
annotation, the function itself otherwise. -/
def applyAnn : PyAnn → PyObj → Except PyExc PyObj
  | .empty, v => .ok v
  | .strAnn _, _ => .error .typeError
  | .callable f _, v => f v

/-- Python iteration over a value, as the `MPS` comprehension
`[item_converter(arg) for arg in items_converter(args[idx:])]` needs it. -/
def pyIterate : PyObj → Except PyExc (List PyObj)
  | .list xs => .ok xs
  | .tuple xs => .ok xs
  | .str s => .ok (s.map (fun c => .str [c]))
  | .dict xs => .ok (xs.map Prod.fst)
  | _ => .error .typeError

/-- `dict(x)` as the `MKW` block needs it: a dict stays; a sequence of pairs
becomes a dict (a non-pair element raises `ValueError`); anything else raises
`TypeError`. -/
def pyToDict : PyObj → Except PyExc (List (PyObj × PyObj))
  | .dict xs => .ok xs
  | .list xs => xs.mapM (fun e => match e with
      | .tuple [a, b] => .ok (a, b)
      | .list [a, b] => .ok (a, b)
      | _ => .error .valueError)
  | .tuple xs => xs.mapM (fun e => match e with
      | .tuple [a, b] => .ok (a, b)
      | .list [a, b] => .ok (a, b)
      | _ => .error .valueError)
  | _ => .error .typeError

/-- Python `==` on the hashable value kinds that occur as dict keys here (kwargs
keys are identifier strings; unhashable containers cannot be dict keys). -/
def pyKeyBeq : PyObj → PyObj → Bool
  | .str a, .str b => a == b
  | .int a, .int b => a == b
  | .float a, .float b => a == b
  | .bool a, .bool b => a == b
  | .none, .none => true
  | _, _ => false

/-- Association update keyed by Python values (dict assignment). -/
def pyDictSet (d : List (PyObj × PyObj)) (k : PyObj) (v : PyObj) :
    List (PyObj × PyObj) :=
  if (d.find? (fun p => pyKeyBeq p.1 k)).isSome then
    d.map (fun p => if pyKeyBeq p.1 k then (k, v) else p)
  else d ++ [(k, v)]

/-- The `item_converter` of the `MPS` branch (line 252):
`(items_converter.__args__[0] if hasattr(items_converter, "__args__") else
DO_NOTHING) or DO_NOTHING`; an empty `__args__` raises `IndexError`. -/
def mpsItemConverter : PyAnn → Except PyExc (PyObj → Except PyExc PyObj)
  | .callable _ (some []) => .error .indexError
  | .callable _ (some (g :: _)) => .ok g
  | _ => .ok (fun v => .ok v)

/-- The `args[idx:] = [item_converter(arg) for arg in items_converter(args[idx:])]`
statement of the `MPS` branch (lines 250–256), producing the replacement tail. -/
def mpsTransform (ann : PyAnn) (tail : List PyObj) : Except PyExc (List PyObj) := do
  let itemConv ← mpsItemConverter ann
  let converted ← applyAnn ann (.list tail)
  let elems ← pyIterate converted
  elems.mapM itemConv

/-- The positional loop of `type_casting` (lines 242–256): walk
`zip(signature.parameters.items(), args)` with the running index; `PS`/`KWPS`
parameters coerce in place (a duplicate keyword raises `TypeError`, a `TypeError`
from the coercion is swallowed), `MPS` rewrites the tail.  The `args` list is
mutated while `zip` iterates it, so the loop re-checks the current length. -/
def tcLoop1 (kwargs : List (PyObj × PyObj)) :
    List SigParam → List PyObj → Nat → Except PyExc (List PyObj)
  | [], args, _ => .ok args
  | p :: ps, args, idx =>
    if idx ≥ args.length then .ok args
    else
      match p.kind with
      | .ps | .kwps =>
        if (kwargs.find? (fun q => pyKeyBeq q.1 (PyObj.str p.name))).isSome then
          .error .typeError
        else
          match applyAnn p.ann (args.getD idx .none) with
          | .ok v => tcLoop1 kwargs ps (args.set idx v) (idx + 1)
          | .error .typeError => tcLoop1 kwargs ps args (idx + 1)
          | .error e => .error e
      | .mps =>
        match mpsTransform p.ann (args.drop idx) with
        | .ok newTail => tcLoop1 kwargs ps (args.take idx ++ newTail) (idx + 1)
        | .error .typeError => tcLoop1 kwargs ps args (idx + 1)
        | .error e => .error e
      | _ => tcLoop1 kwargs ps args (idx + 1)

/-- Find a signature parameter by name (`signature.parameters[kw]`). -/
def sigFind (params : List SigParam) (n : List Char) : Option SigParam :=
  params.find? (fun p => p.name == n)

/-- The keyword loop of `type_casting` (lines 258–270): enumerate the kwargs until
a key that is no parameter, or names the `VAR_KEYWORD` parameter (`last_idx`,
break); `KW`/`KWPS` parameters coerce in place with `TypeError` swallowed. -/
def tcLoop2 (params : List SigParam) :
    List (PyObj × PyObj) → List (PyObj × PyObj) → Nat →
      Except PyExc (List (PyObj × PyObj) × Option Nat)
  | [], acc, _ => .ok (acc, Option.none)
  | (k, v) :: rest, acc, idx =>
    match k with
    | .str ks =>
      (match sigFind params ks with
      | Option.none => .ok (acc, some idx)
      | some p =>
        if p.kind = .mkw then .ok (acc, some idx)
        else if p.kind = .kw ∨ p.kind = .kwps then
          match applyAnn p.ann v with
          | .ok v2 => tcLoop2 params rest (pyDictSet acc k v2) (idx + 1)
          | .error .typeError => tcLoop2 params rest acc (idx + 1)
          | .error e => .error e
        else tcLoop2 params rest acc (idx + 1))
    | _ => .ok (acc, some idx)

/-- The `item_converters` of the `MKW` block (line 276):
`(__args__[:2] if hasattr(items_converter, "__args__") else (DN, DN)) or (DN, DN)`
— an empty `__args__` slice is falsy and falls back to the do-nothing pair; a
single-element one is kept and raises `IndexError` only when `item_converters[1]`
is actually subscripted, i.e. on the first iterated pair. -/
def mkwConvList (ann : PyAnn) : List (PyObj → Except PyExc PyObj) :=
  match ann with
  | .callable _ (some gs) =>
    if gs.isEmpty then [fun v => .ok v, fun v => .ok v] else gs.take 2
  | _ => [fun v => .ok v, fun v => .ok v]

/-- One `VAR_KEYWORD` parameter's `kwargs.update({...})` of the `MKW` block
(lines 272–280), with `TypeError` swallowed. -/
def mkwApply (kwargs : List (PyObj × PyObj)) (lastIdx : Nat) (ann : PyAnn) :
    Except PyExc (List (PyObj × PyObj)) :=
  let ics := mkwConvList ann
  match (do
      let converted ← applyAnn ann (.dict (kwargs.drop lastIdx))
      let d ← pyToDict converted
      d.mapM (fun p => do
        let k2 ← (ics.getD 0 (fun v => .ok v)) p.1
        let v2 ← (match ics.get? 1 with
          | some g => g p.2
          | Option.none => .error .indexError)
        pure (k2, v2)) : Except PyExc (List (PyObj × PyObj))) with
  | .ok pairs => .ok (pairs.foldl (fun acc p => pyDictSet acc p.1 p.2) kwargs)
  | .error .typeError => .ok kwargs
  | .error e => .error e

/-- The `MKW` block of `type_casting` (lines 272–280): iterate every
`VAR_KEYWORD` parameter of the signature. -/
def mkwBlock (params : List SigParam) (kwargs : List (PyObj × PyObj))
    (lastIdx : Nat) : Except PyExc (List (PyObj × PyObj)) :=
  params.foldlM
    (fun acc p => if p.kind = .mkw then mkwApply acc lastIdx p.ann else pure acc)
    kwargs

/-- `type_casting` (lines 239–285): the coerced args, the coerced kwargs and the
return converter (`DO_NOTHING` unless the return annotation is neither absent nor
`typing.Any` — in which case it is the annotation itself, whatever it is).  The
`deepcopy` of the source is the identity here (values are immutable in the
model). -/
def typeCasting (sig : PySignature) (args : List PyObj)
    (kwargs : List (PyObj × PyObj)) :
    Except PyExc (List PyObj × List (PyObj × PyObj) × PyAnn) := do
  let args1 ← tcLoop1 kwargs sig.params args 0
  let (kwargs1, lastIdx) ← tcLoop2 sig.params kwargs kwargs 0
  let kwargs2 ← match lastIdx with
    | Option.none => pure kwargs1
    | some li => mkwBlock sig.params kwargs1 li
  pure (args1, kwargs2, sig.retAnn)

/-- `repr` for the value kinds Python's `str` of a container would show.  Fueled
for structural recursion; container and float printing are best-effort (no claim
observes them). -/
def pyReprF : Nat → PyObj → List Char
  | _, .str s => '\x27' :: s ++ ['\x27']
  | _, .int n => pyStrOfInt n
  | _, .float q => pyStrOfInt q.num ++ ('/' :: natDigits q.den)
  | _, .bool b => if b then "True".data else "False".data
  | _, .none => "None".data
  | 0, _ => []
  | fuel + 1, .list xs =>
    '[' :: List.intercalate ", ".data (xs.map (pyReprF fuel)) ++ [']']
  | fuel + 1, .tuple xs =>
    '(' :: List.intercalate ", ".data (xs.map (pyReprF fuel)) ++ [')']
  | fuel + 1, .dict xs =>
    '{' :: List.intercalate ", ".data
      (xs.map (fun p => pyReprF fuel p.1 ++ ": ".data ++ pyReprF fuel p.2)) ++ ['}']

/-- Nesting depth of a value, the fuel `pyReprF` needs to print it fully. -/
def pyDepth : PyObj → Nat
  | .str _ => 1
  | .int _ => 1
  | .float _ => 1
  | .bool _ => 1
  | .none => 1
  | .list xs => 1 + (xs.attach.map (fun ⟨a, ha⟩ => pyDepth a)).foldl Nat.max 0
  | .tuple xs => 1 + (xs.attach.map (fun ⟨a, ha⟩ => pyDepth a)).foldl Nat.max 0
  | .dict xs =>
    1 + (xs.attach.map (fun ⟨a, ha⟩ => Nat.max (pyDepth a.1) (pyDepth a.2))).foldl
      Nat.max 0
decreasing_by
  all_goals
    first
      | (have h := List.sizeOf_lt_of_mem ha
         obtain ⟨x, y⟩ := a
         simp only [Prod.mk.sizeOf_spec] at h
         simp_wf
         omega)
      | (have h := List.sizeOf_lt_of_mem ha
         simp_wf
         omega)

/-- Python `str()` of a handler's return value (`str(return_converter(...))`,
line 177). -/
def pyStr (v : PyObj) : List Char :=
  match v with
  | .str s => s
  | .int n => pyStrOfInt n
  | .float q => pyStrOfInt q.num ++ ('/' :: natDigits q.den)
  | .bool b => if b then "True".data else "False".data
  | .none => "None".data
  | v => pyReprF (pyDepth v) v

/-- `" ".join(e.args)` for an `ErrorMessage` (line 179). -/
def joinSpace (parts : List (List Char)) : List Char :=
  List.intercalate [' '] parts

/-- What a registered `on_error` hook may do with `(exc, retry_callable)`:
return after calling the retry, return without calling it, or raise. -/
inductive EHResult where
  | ok (callsRetry : Bool)
  | raised

/-- Observable effects of request processing, in order of occurrence. -/
structure ReqOutput where
  executions : List (List Char × List PyObj × List (PyObj × PyObj))
  sends : List (List Char)
  events : List (List Char)
  spawned : List (List Char)

/-- `RequestHandler.execute_request` (lines 159–201).  `fuel` bounds the
`respond(retried=True)` re-entry the error handler may trigger (depth ≤ 1 in the
source, since the retried call skips the handler branch); the produced
`Option PyExc` is an exception escaping `execute_request` — which happens exactly
when the generic-exception path falls through to `send_response(response_text)`
with `response_text` never assigned (`NameError`). -/
def executeRequest (eh : Option (PyExc → EHResult)) :
    Nat → List Char → List PyObj → List (PyObj × PyObj) → Bool → PyAnn →
      SpecificRequestHandler → Bool → ReqOutput → ReqOutput × Option PyExc
  | 0, _, _, _, _, _, _, _, out => (out, some .other)
  | fuel + 1, name, args, kwargs, response, returnConverter, srh, retried, out =>
    let out1 := { out with executions := out.executions ++ [(name, args, kwargs)] }
    let tryResult : Except PyExc (List Char) := do
      let v ← srh.function.impl args kwargs
      let rv ← applyAnn returnConverter v
      pure (pyStr rv)
    match tryResult with
    | .ok text =>
      if response then ({ out1 with sends := out1.sends ++ [text] }, Option.none)
      else (out1, Option.none)
    | .error (.errorMessage msgs) =>
      let text := joinSpace msgs
      if response then ({ out1 with sends := out1.sends ++ [text] }, Option.none)
      else (out1, Option.none)
    | .error e =>
      match eh, retried with
      | some handler, false =>
        (match handler e with
        | .ok true =>
          let (out2, exc2) := executeRequest eh fuel name args kwargs response
            returnConverter srh true out1
          (match exc2 with
          | Option.none => (out2, Option.none)
          | some _ =>
            ({ out2 with events := out2.events ++ ["error_in_request".data] },
              Option.none))
        | .ok false => (out1, Option.none)
        | .raised =>
          ({ out1 with events := out1.events ++ ["error_in_request".data] },
            Option.none))
      | _, _ =>
        let out2 := { out1 with events := out1.events ++ ["error_in_request".data] }
        if response then (out2, some .nameError)
        else (out2, Option.none)

/-- `RequestHandler.dispatch_request` (lines 134–157): look the handler up, run
`type_casting` against `inspect.signature(request_handling_function)` — the
signature of the wrapper object, see `signatureOfSpecificRequestHandler` — then
execute inline, or spawn a worker when the handler is marked `thread` (the worker
itself is outside this sequential model; its spawning is recorded). -/
def dispatchRequest (eh : Option (PyExc → EHResult))
    (reqs : List (List Char × SpecificRequestHandler)) (name : List Char)
    (args : List PyObj) (kwargs : List (PyObj × PyObj)) (response : Bool)
    (out : ReqOutput) : ReqOutput × Option PyExc :=
  match dictGet reqs name with
  | Option.none => (out, some .keyError)
  | some srh =>
    match typeCasting signatureOfSpecificRequestHandler args kwargs with
    | .error e => (out, some e)
    | .ok (args1, kwargs1, retConv) =>
      if srh.thread then
        ({ out with spawned := out.spawned ++ [name] }, Option.none)
      else
        executeRequest eh 2 name args1 kwargs1 response retConv srh false out

/-- `re.match(r"\w+", s)`: the leading word characters (ASCII model). -/
def isWordChar (c : Char) : Bool := c.isAlphanum || c = '_'

def wordHead (s : List Char) : Option (List Char) :=
  let w := s.takeWhile isWordChar
  if w.isEmpty then Option.none else some w

/-- `re.match(r"\w+\(.*\)$", s)`: a word, an opening parenthesis, anything, a
closing parenthesis at the end. -/
def isPyCallForm (s : List Char) : Bool :=
  let w := s.takeWhile isWordChar
  let rest := s.drop w.length
  !w.isEmpty && (match rest with
    | '(' :: more => more.getLast? == some ')'
    | _ => false)

/-- `msg.split(";")` (unbounded split; at least one part). -/
def splitAllAt (sep : Char) : List Char → List (List Char)
  | [] => [[]]
  | c :: cs =>
    if c = sep then [] :: splitAllAt sep cs
    else
      match splitAllAt sep cs with
      | h :: t => (c :: h) :: t
      | [] => [[c]]

/-- Python `float(s)` on the strings the normal-request tokenizer builds:
optional digits, one optional dot, digits; exact as a rational. -/
def pyFloatParse (s : List Char) : Except Unit Rat :=
  match splitOnceAt '.' s with
  | Option.none => (pyInt s).map (fun n => (n : Rat))
  | some (a, b) =>
    if a.all Char.isDigit ∧ b.all Char.isDigit ∧ ¬(a.isEmpty ∧ b.isEmpty) ∧
        ¬b.contains '.' then
      .ok (mkRat ((digitsVal a).getD 0 * 10 ^ b.length + (digitsVal b).getD 0)
        (10 ^ b.length))
    else .error ()

/-- Tokenizer modes of `parse_normal_request` (lines 302–310). -/
inductive PNMode where
  | id | mt | num | flt | strM
deriving DecidableEq

/-- The final `except StopIteration` append of `parse_normal_request`
(line 360). -/
def pnFinish (mode : PNMode) (content : List Char) (args : List PyObj) :
    Except PyExc (List PyObj) :=
  match mode with
  | .flt =>
    match pyFloatParse content with
    | .ok q => .ok (args ++ [.float q])
    | .error _ => .error .valueError
  | .num =>
    match pyInt content with
    | .ok n => .ok (args ++ [.int n])
    | .error _ => .error .valueError
  | _ => .ok (args ++ [.str content])

/-- The `while True` tokenizer loop of `parse_normal_request` (lines 311–361),
transcribed with its fall-through semantics.  An iteration that switches mode may
pull a further character with `next(i)` before falling into a *later* mode block
of the same iteration; since the earlier blocks test for modes the machine is no
longer in, that is the same as pushing the pulled character back and restarting
the loop in the new mode — which is how the `ID → MT` and quote → `STR`
transitions are rendered here.  The `MT → NUM` transition keeps the same
character and falls straight into the `NUM` block, which is inlined at that spot.
A `StopIteration` from any `next` jumps to the final append with the mode current
at that point (the `[]` equation).  `fuel` only bounds the iteration count; every
recursive call consumes exactly one character, so `msg.length + 1` always
suffices. -/
def pnRunF : Nat → List Char → PNMode → List Char → List PyObj → Char →
    Except PyExc (List PyObj)
  | 0, _, mode, content, args, _ => pnFinish mode content args
  | _ + 1, [], mode, content, args, _ => pnFinish mode content args
  | fuel + 1, n :: rest, .id, content, args, openType =>
    if n = ' ' then pnRunF fuel rest .mt [] (args ++ [.str content]) openType
    else pnRunF fuel rest .id (content ++ [n]) args openType
  | fuel + 1, n :: rest, .mt, content, args, openType =>
    if n = '\x27' ∨ n = '"' then pnRunF fuel rest .strM content args n
    else if n.isDigit ∨ n = '.' then
      if n = '.' then pnRunF fuel rest .flt (content ++ [n]) args openType
      else pnRunF fuel rest .num (content ++ [n]) args openType
    else .error .syntaxError
  | fuel + 1, n :: rest, .flt, content, args, openType =>
    if n = ' ' then
      match pyFloatParse content with
      | .ok q => pnRunF fuel rest .mt [] (args ++ [.float q]) openType
      | .error _ => .error .valueError
    else pnRunF fuel rest .flt (content ++ [n]) args openType
  | fuel + 1, n :: rest, .num, content, args, openType =>
    if n = ' ' then
      match pyInt content with
      | .ok m => pnRunF fuel rest .mt [] (args ++ [.int m]) openType
      | .error _ => .error .valueError
    else if n = '.' then pnRunF fuel rest .flt (content ++ [n]) args openType
    else pnRunF fuel rest .num (content ++ [n]) args openType
  | fuel + 1, n :: rest, .strM, content, args, openType =>
    if n = openType then
      match rest with
      | [] => pnFinish .strM content args
      | n2 :: rest2 =>
        if n2 = ' ' then pnRunF fuel rest2 .mt [] (args ++ [.str content]) openType
        else .error .assertionError
    else if n = '\x5c' then
      match rest with
      | [] => pnFinish .strM content args
      | n2 :: rest2 => pnRunF fuel rest2 .strM (content ++ [n2]) args openType
    else pnRunF fuel rest .strM (content ++ [n]) args openType

/-- `parse_normal_request` (lines 298–363): run the tokenizer from mode `ID` with
`open_type = "\x27"`, then `assert args.pop(0) == name` (an empty token list would
raise `IndexError`; a mismatch raises `AssertionError`); the kwargs are always
empty. -/
def parseNormalRequest (msg : List Char) (name : List Char) :
    Except PyExc (List Char × List PyObj × List (PyObj × PyObj)) :=
  match pnRunF (msg.length + 1) msg .id [] [] '\x27' with
  | .error e => .error e
  | .ok args =>
    match args with
    | [] => .error .indexError
    | a0 :: restArgs =>
      match a0 with
      | .str s => if s = name then .ok (name, restArgs, []) else .error .assertionError
      | _ => .error .assertionError

/-- The sub-request collection loop of `process_request` (lines 99–115): split the
message at every `;`, strip each part, skip parts with no leading word, look the
word up in the request table (a `KeyError` for an unregistered name escapes to the
syntax-error path), then parse with the Python-call parser and/or the normal
parser exactly as the three `if`s do, raising `PermissionError` for a Python-form
request whose handler forbids the syntax.  `parse_python_request` builds on the
external `ast` module and is taken as a parameter. -/
def subRequestsOf (reqs : List (List Char × SpecificRequestHandler))
    (parsePython : List Char → List Char →
      Except PyExc (List Char × List PyObj × List (PyObj × PyObj)))
    (msg : List Char) :
    Except PyExc (List (List Char × List PyObj × List (PyObj × PyObj))) :=
  ((splitAllAt ';' msg).map pyStrip).foldlM
    (fun acc raw =>
      match wordHead raw with
      | Option.none => pure acc
      | some reqName =>
        let usingPy := isPyCallForm raw
        match dictGet reqs reqName with
        | Option.none => .error .keyError
        | some srh => do
          let acc1 ← if usingPy && srh.allowPythonSyntax then do
              let sub ← parsePython raw reqName
              pure (acc ++ [sub])
            else pure acc
          let acc2 ← if !usingPy then do
              let sub ← parseNormalRequest raw reqName
              pure (acc1 ++ [sub])
            else pure acc1
          if usingPy && !srh.allowPythonSyntax then .error .permissionError
          else pure acc2)
    []

/-- The dispatch loop of `process_request` (lines 126–127): dispatch each
sub-request in order, `response` true exactly on the last one; the first escaping
exception aborts the loop. -/
def dispatchLoop (eh : Option (PyExc → EHResult))
    (reqs : List (List Char × SpecificRequestHandler)) :
    List (List Char × List PyObj × List (PyObj × PyObj)) → Nat → Nat → ReqOutput →
      ReqOutput × Option PyExc
  | [], _, _, out => (out, Option.none)
  | (name, args, kwargs) :: rest, idx, total, out =>
    match dispatchRequest eh reqs name args kwargs (decide (idx = total - 1)) out with
    | (out1, Option.none) => dispatchLoop eh reqs rest (idx + 1) total out1
    | (out1, some e) => (out1, some e)

/-- `RequestHandler.process_request` (lines 91–132): parse the message into
sub-requests — any exception there answers `"The command syntax was wrong."` and
emits `invalid_syntax` — then dispatch them in order; an exception escaping the
dispatch loop answers `"Something went wrong."`, a clean run answers nothing. -/
def processRequest (eh : Option (PyExc → EHResult))
    (reqs : List (List Char × SpecificRequestHandler))
    (parsePython : List Char → List Char →
      Except PyExc (List Char × List PyObj × List (PyObj × PyObj)))
    (msg : List Char) : ReqOutput × Option (List Char) :=
  match subRequestsOf reqs parsePython msg with
  | .error _ =>
    ({ executions := [], sends := [], events := ["invalid_syntax".data],
       spawned := [] },
      some "The command syntax was wrong.".data)
  | .ok subs =>
    match dispatchLoop eh reqs subs 0 subs.length
        { executions := [], sends := [], events := [], spawned := [] } with
    | (out, Option.none) => (out, Option.none)
    | (out, some _) => (out, some "Something went wrong.".data)

/-! ### Concrete request-layer objects used by the examples -/

/-- A registered handler whose function returns the Python int `k`. -/
def constIntHandler (name : List Char) (k : Int) : SpecificRequestHandler :=
  { function := { name := name, sig := { params := [], retAnn := .empty },
                  impl := fun _ _ => .ok (.int k) }
    name := name
    autoConvert := false
    allowPythonSyntax := true
    thread := false }

/-- Three registered non-thread handlers `a`, `b`, `c`. -/
def reqsABC : List (List Char × SpecificRequestHandler) :=
  [("a".data, constIntHandler "a".data 1),
   ("b".data, constIntHandler "b".data 2),
   ("c".data, constIntHandler "c".data 3)]

/-- A handler that raises `ErrorMessage("nope")`. -/
def handlerNope : SpecificRequestHandler :=
  { function := { name := "e".data, sig := { params := [], retAnn := .empty },
                  impl := fun _ _ => .error (.errorMessage ["nope".data]) }
    name := "e".data
    autoConvert := false
    allowPythonSyntax := true
    thread := false }

/-- `int` as a parameter annotation: accepts ints and int-looking strings, raises
`ValueError` on other strings, `TypeError` on unconvertible kinds. -/
def pyIntAnn : PyAnn :=
  .callable (fun v => match v with
    | .int n => .ok (.int n)
    | .bool b => .ok (.int (if b then 1 else 0))
    | .str s =>
      (match pyInt s with
      | .ok n => .ok (.int n)
      | .error _ => .error .valueError)
    | _ => .error .typeError) Option.none

/-- A one-parameter signature annotated with `int`. -/
def sigIntParam : PySignature :=
  { params := [{ name := "x".data, kind := .kwps, ann := pyIntAnn }]
    retAnn := .empty }

/-- An annotation whose invocation always raises `TypeError`. -/
def tyErrAnn : PyAnn := .callable (fun _ => .error .typeError) Option.none

/-- A one-parameter signature whose annotation always raises `TypeError`. -/
def sigTyErrParam : PySignature :=
  { params := [{ name := "x".data, kind := .kwps, ann := tyErrAnn }]
    retAnn := .empty }

/-- A plain function object for the registration examples. -/
def pyFuncF : PyFunc :=
  { name := "f".data, sig := { params := [], retAnn := .empty },
    impl := fun _ _ => .ok .none }

/-- Boolean hypothesis of the amended C8: every signature parameter is
positional (`PS`/`KWPS`) and — wherever an argument is actually consumed — the
annotation call on it raises `TypeError`. -/
def tcAllSkipB : List SigParam → List PyObj → Nat → Bool
  | [], _, _ => true
  | p :: ps, args, idx =>
    (p.kind == ParamKind.ps || p.kind == ParamKind.kwps) &&
    (decide (args.length ≤ idx) ||
      (match applyAnn p.ann (args.getD idx .none) with
        | .error .typeError => true
        | _ => false)) &&
    tcAllSkipB ps args (idx + 1)

/-! # Theorems -/

theorem chars_length : chars.length = 91 := by decide

theorem chars_nodup : chars.Nodup := by decide

/-- `cloudEncode` unfolded to a prefix plus a concatenation of per-character codes. -/
theorem cloudEncode_eq (data : List Char) :
    cloudEncode data = '1' :: data.flatMap encodeChar := by
  suffices h : ∀ acc : List Char,
      data.foldl (fun acc c => acc ++ encodeChar c) acc = acc ++ data.flatMap encodeChar by
    simpa [cloudEncode] using h ['1']
  induction data with
  | nil => simp
  | cons c rest ih => intro acc; simp [List.flatMap_cons, ih, List.append_assoc]

/-- Each alphabet character's code is two digits, parses back to its 1-based
position, and that position indexes `chars` back to the character. -/
theorem encodeChar_good : ∀ c ∈ chars, (encodeChar c).length = 2 ∧
    pyInt (encodeChar c) = .ok ((chars.indexOf c : Int) + 1) ∧
    pyGet chars (chars.indexOf c) = some c := by decide

/-- Decoding steps over one encoded character and recurses. -/
theorem decodePairs_encodeChar (c : Char) (hc : c ∈ chars) (rest : List Char) :
    decodePairs (encodeChar c ++ rest) = (decodePairs rest).map (c :: ·) := by
  obtain ⟨hlen, hparse, hget⟩ := encodeChar_good c hc
  have hidx : ((chars.indexOf c : Int) + 1) - 1 = (chars.indexOf c : Int) := by ring
  match henc : encodeChar c with
  | [d0, d1] =>
    rw [henc] at hparse
    simp only [List.cons_append, List.nil_append, decodePairs, hparse, Bind.bind,
      Except.bind, hidx, hget]
    cases h : decodePairs rest <;>
      simp [h, Except.map, Pure.pure, Except.pure]
  | [] => rw [henc] at hlen; simp at hlen
  | [_] => rw [henc] at hlen; simp at hlen
  | _ :: _ :: _ :: _ => rw [henc] at hlen; simp at hlen

/-- C2 counterexample: the claim as stated fails.  `_encode` prepends the digit `1`,
so composing `_decode` directly with `_encode` pairs that prefix with the first code
digit: already for the single alphabet character `a` (encoded `101`), the decode
returns `j` (pair `10`), not `a`. -/
theorem c2_decode_encode_counterexample :
    cloudDecode (cloudEncode "a".data) = .ok "j".data ∧
    cloudDecode (cloudEncode "a".data) ≠ .ok "a".data := by decide

/-- C2 (amended): for every string over the codec alphabet, `_decode` applied to the
`_encode` output with its leading `1` stripped (exactly what the inbound path does:
`msg_data = value.split(".", 1)[0][1:]` removes that digit as the packet type) returns
the original string. -/
theorem c2_decode_encode_dropOne (s : List Char) (h : ∀ c ∈ s, c ∈ chars) :
    cloudDecode ((cloudEncode s).drop 1) = .ok s := by
  rw [cloudEncode_eq, List.drop_one, List.tail_cons, cloudDecode]
  induction s with
  | nil => rfl
  | cons c rest ih =>
    have hc : c ∈ chars := h c (by simp)
    rw [List.flatMap_cons, decodePairs_encodeChar c hc,
      ih (fun x hx => h x (by simp [hx]))]
    rfl

/-- Witness for C2 at the concrete string `Hi`. -/
theorem c2_witness :
    cloudDecode ((cloudEncode "Hi".data).drop 1) = .ok "Hi".data :=
  c2_decode_encode_dropOne "Hi".data (by decide)

/-- C3 counterexample: `_encode("Hi")` is `13409` (`H` is the 34th character of the
lowercase-first alphabet, `i` the 9th), not `10835`, and `_decode("10835")` is `j5`
(pairs `10`, `83`, trailing `5` dropped), not `Hi`. -/
theorem c3_codec_example_counterexample :
    cloudEncode "Hi".data ≠ "10835".data ∧
    cloudDecode "10835".data = .ok "j5".data ∧
    cloudDecode "10835".data ≠ .ok "Hi".data := by decide

/-- C3 (amended): `_encode("Hi")` returns `13409` and decoding the digit pairs after
the leading `1` returns `Hi`; the codec alphabet has exactly 91 characters, each
mapped to a two-digit decimal code equal to its 1-based position, behind a leading
`1` prefix. -/
theorem c3_codec_example :
    cloudEncode "Hi".data = "13409".data ∧
    cloudDecode ((cloudEncode "Hi".data).drop 1) = .ok "Hi".data ∧
    chars.length = 91 ∧
    (∀ c ∈ chars, (encodeChar c).length = 2 ∧
      digitsVal (encodeChar c) = some (chars.indexOf c + 1)) := by decide

/-- `indexOf?` on a member returns `some` of its `indexOf`. -/
theorem indexOf?_of_mem {l : List Char} {c : Char} (h : c ∈ l) :
    l.indexOf? c = some (l.indexOf c) := by
  cases hio : l.indexOf? c with
  | none =>
    have := List.indexOf?_eq_none_iff.mp hio c h
    simp at this
  | some i => rw [List.indexOf_eq_indexOf?, hio]

/-- The decrypt loop undoes the encrypt loop from any keystream state: both
recompute the same shift sequence, and shifting back through the alphabet is
inverse to shifting forward, `chars` being duplicate-free. -/
theorem decLoop_encLoop (f : List Nat → Nat → List Nat) (k : List Nat) :
    ∀ (cs : List Char) (aesPass : Nat) (shifts : List Nat) (out : List Char),
      (∀ c ∈ cs, c ∈ chars) → encLoop f k cs aesPass shifts = .ok out →
      decLoop f k out aesPass shifts = .ok cs := by
  intro cs
  induction cs with
  | nil =>
    intro aesPass shifts out _ henc
    simp only [encLoop, Except.ok.injEq] at henc
    subst henc
    rfl
  | cons c cs ih =>
    intro aesPass shifts out hmem henc
    have hc : c ∈ chars := hmem c (by simp)
    have hio : chars.indexOf? c = some (chars.indexOf c) := indexOf?_of_mem hc
    rcases hr : refill f k aesPass shifts with ⟨p, _ | ⟨s, srest⟩⟩
    · rw [encLoop, hr] at henc
      exact absurd henc (by simp)
    · rw [encLoop, hr, hio] at henc
      have henc' : Except.map
          (fun x => chars.getD ((chars.indexOf c + s) % chars.length) '*' :: x)
          (encLoop f k cs p srest) = Except.ok out := henc
      clear henc
      cases htail : encLoop f k cs p srest with
      | error e =>
        rw [htail] at henc'
        exact absurd henc' (by simp [Except.map])
      | ok tail =>
        rw [htail] at henc'
        simp only [Except.map, Except.ok.injEq] at henc'
        subst henc'
        have hidxlt : chars.indexOf c < chars.length := List.indexOf_lt_length.mpr hc
        have hmlt : (chars.indexOf c + s) % chars.length < chars.length :=
          Nat.mod_lt _ (by rw [chars_length]; omega)
        have hgd : chars.getD ((chars.indexOf c + s) % chars.length) '*' =
            chars[(chars.indexOf c + s) % chars.length] := List.getD_eq_getElem _ _ hmlt
        have hemem : chars.getD ((chars.indexOf c + s) % chars.length) '*' ∈ chars := by
          rw [hgd]; exact List.getElem_mem _
        have heidx : chars.indexOf (chars.getD ((chars.indexOf c + s) % chars.length) '*') =
            (chars.indexOf c + s) % chars.length := by
          rw [hgd]; exact List.indexOf_getElem chars_nodup _ _
        have heio : chars.indexOf? (chars.getD ((chars.indexOf c + s) % chars.length) '*') =
            some ((chars.indexOf c + s) % chars.length) := by
          rw [indexOf?_of_mem hemem, heidx]
        rw [decLoop, hr, heio]
        have hint : ((((chars.indexOf c + s) % chars.length : Nat) : Int) - (s : Int)) %
            ((chars.length : Nat) : Int) = (chars.indexOf c : Int) := by
          rw [chars_length] at hidxlt ⊢
          push_cast
          omega
        have hcback : chars.getD (chars.indexOf c) '*' = c := by
          rw [List.getD_eq_getElem _ _ hidxlt]
          exact List.getElem_indexOf hidxlt
        have hihtail : decLoop f k tail p srest = Except.ok cs :=
          ih p srest tail (fun x hx => hmem x (by simp [hx])) htail
        simp only [hint, Int.toNat_natCast, hcback, hihtail, Except.map]

theorem digitChar_facts : ∀ n < 10, (Nat.digitChar n).isDigit = true ∧
    (Nat.digitChar n).toNat - '0'.toNat = n := by decide

theorem natDigitsAux_all_digit : ∀ fuel n, n < fuel →
    ∀ c ∈ natDigitsAux fuel n, c.isDigit = true := by
  intro fuel
  induction fuel with
  | zero => intro n h; omega
  | succ fuel ih =>
    intro n h c hc
    rw [natDigitsAux] at hc
    by_cases h10 : n < 10
    · rw [if_pos h10] at hc
      simp only [List.mem_singleton] at hc
      subst hc
      exact (digitChar_facts n h10).1
    · rw [if_neg h10] at hc
      rcases List.mem_append.mp hc with hc | hc
      · exact ih (n / 10) (by omega) c hc
      · simp only [List.mem_singleton] at hc
        subst hc
        exact (digitChar_facts (n % 10) (Nat.mod_lt _ (by omega))).1

theorem natDigitsAux_ne_nil : ∀ fuel n, n < fuel → natDigitsAux fuel n ≠ [] := by
  intro fuel n h
  cases fuel with
  | zero => omega
  | succ fuel =>
    rw [natDigitsAux]
    by_cases h10 : n < 10
    · rw [if_pos h10]; simp
    · rw [if_neg h10]; simp

theorem digitsValAux_append (acc : Nat) (xs ys : List Char) :
    digitsValAux acc (xs ++ ys) = (digitsValAux acc xs).bind (fun m => digitsValAux m ys) := by
  induction xs generalizing acc with
  | nil => simp [digitsValAux]
  | cons c cs ih =>
    simp only [List.cons_append, digitsValAux]
    by_cases hd : c.isDigit <;> simp [hd, ih]

theorem digitsValAux_natDigitsAux : ∀ fuel n acc, n < fuel →
    digitsValAux acc (natDigitsAux fuel n) =
      some (acc * 10 ^ (natDigitsAux fuel n).length + n) := by
  intro fuel
  induction fuel with
  | zero => intro n acc h; omega
  | succ fuel ih =>
    intro n acc h
    rw [natDigitsAux]
    by_cases h10 : n < 10
    · rw [if_pos h10]
      obtain ⟨hdig, hval⟩ := digitChar_facts n h10
      have hval' : n.digitChar.toNat - 48 = n := by simpa using hval
      simp [digitsValAux, hdig, hval', pow_one]
    · rw [if_neg h10]
      rw [digitsValAux_append, ih (n / 10) acc (by omega)]
      obtain ⟨hdig, hval⟩ := digitChar_facts (n % 10) (Nat.mod_lt _ (by omega))
      have hval' : (n % 10).digitChar.toNat - 48 = n % 10 := by simpa using hval
      simp only [Option.some_bind, digitsValAux, hdig, if_true, hval',
        List.length_append, List.length_singleton, Option.some.injEq]
      rw [pow_succ, ← Nat.mul_assoc, Nat.add_mul]
      have h := Nat.div_add_mod n 10
      omega

theorem digitsVal_natDigits (n : Nat) : digitsVal (natDigits n) = some n := by
  unfold natDigits
  have hne := natDigitsAux_ne_nil (n + 1) n (by omega)
  have hval := digitsValAux_natDigitsAux (n + 1) n 0 (by omega)
  cases hd : natDigitsAux (n + 1) n with
  | nil => exact absurd hd hne
  | cons c cs =>
    rw [hd] at hval
    simp [digitsVal, hval]

theorem not_space_of_digit {c : Char} (h : c.isDigit = true) : pyIsSpace c = false := by
  simp only [pyIsSpace, decide_eq_false_iff_not]
  rintro (rfl | rfl | rfl | rfl | rfl | rfl) <;> simp_all

theorem dropWhile_of_head_false {p : Char → Bool} :
    ∀ l : List Char, (∀ c ∈ l, p c = false) → l.dropWhile p = l := by
  intro l hl
  cases l with
  | nil => rfl
  | cons c cs => simp [List.dropWhile_cons, hl c (by simp)]

/-- `int(s)` on a non-empty all-digit string returns its value. -/
theorem pyInt_digits (l : List Char) (hne : l ≠ []) (hd : ∀ c ∈ l, c.isDigit = true)
    (n : Nat) (hv : digitsVal l = some n) : pyInt l = .ok n := by
  have hns : ∀ c ∈ l, pyIsSpace c = false := fun c hc => not_space_of_digit (hd c hc)
  have hstrip : pyStrip l = l := by
    unfold pyStrip
    rw [dropWhile_of_head_false l hns,
      dropWhile_of_head_false l.reverse (by simpa using hns), List.reverse_reverse]
  rw [pyInt, hstrip]
  cases l with
  | nil => exact absurd rfl hne
  | cons c cs =>
    have hcd : c.isDigit = true := hd c (by simp)
    have hcm : c ≠ '-' := by rintro rfl; simp_all
    have hcp : c ≠ '+' := by rintro rfl; simp_all
    split
    · simp_all
    · simp_all
    · rw [hv]

theorem pyInt_natDigits (n : Nat) : pyInt (natDigits n) = .ok n :=
  pyInt_digits _ (natDigitsAux_ne_nil (n + 1) n (by omega))
    (natDigitsAux_all_digit (n + 1) n (by omega)) n (digitsVal_natDigits n)

theorem colon_not_mem_natDigits (n : Nat) : ':' ∉ natDigits n := by
  intro hmem
  have := natDigitsAux_all_digit (n + 1) n (by omega) ':' hmem
  simp at this

theorem splitOnceAt_append (xs rest : List Char) (h : ':' ∉ xs) :
    splitOnceAt ':' (xs ++ ':' :: rest) = some (xs, rest) := by
  induction xs with
  | nil => simp [splitOnceAt]
  | cons c cs ih =>
    have hc : ¬(c = ':') := fun hc => h (hc ▸ List.mem_cons_self c cs)
    rw [List.cons_append, splitOnceAt, if_neg hc,
      ih (fun hm => h (List.mem_cons_of_mem c hm))]
    rfl

theorem pyEndsWith_append (xs suf : List Char) : pyEndsWith (xs ++ suf) suf = true := by
  unfold pyEndsWith
  have h2 : (xs ++ suf).length - suf.length = xs.length := by simp
  rw [h2, List.drop_left]
  simp

theorem pyRemoveSuffix_append (xs suf : List Char) : pyRemoveSuffix (xs ++ suf) suf = xs := by
  unfold pyRemoveSuffix
  rw [pyEndsWith_append]
  have h2 : (xs ++ suf).length - suf.length = xs.length := by simp
  rw [if_pos rfl, h2, List.take_left]

theorem endMarker_mem : ∀ c ∈ endMarker, c ∈ chars := by decide

/-- C4: the symmetric cipher round-trips.  For every hashed key (hence for every
integer key, `hashed_key` being a function of the key), every salt, every 4-digit
seed (in fact any seed), every AES block primitive `f`, and every plaintext over the
cipher alphabet: if `encrypt` produced a ciphertext (it always does when `f` returns
non-empty blocks, as real AES does), then `decrypt` of that ciphertext under the same
salt returns the plaintext, independently of the seed. -/
theorem c4_symmetric_roundtrip
    (f : List Nat → Nat → List Nat) (hashedKey : List Nat) (seed salt : Nat)
    (data : List Char) (hdata : ∀ c ∈ data, c ∈ chars) (ct : List Char)
    (henc : symEncrypt f hashedKey seed data salt = .ok ct) :
    symDecrypt f hashedKey ct salt = .ok data := by
  simp only [symEncrypt] at henc
  cases hbody : encLoop f (binXor hashedKey salt) (data ++ endMarker) 0 [] with
  | error e =>
    rw [hbody] at henc
    simp [Except.map] at henc
  | ok body =>
    rw [hbody] at henc
    simp only [Except.map, Except.ok.injEq] at henc
    subst henc
    have hdec : decLoop f (binXor hashedKey salt) body 0 [] = .ok (data ++ endMarker) :=
      decLoop_encLoop _ _ _ _ _ _
        (fun c hc => by
          rcases List.mem_append.mp hc with h | h
          · exact hdata c h
          · exact endMarker_mem c h)
        hbody
    have hsp : split2At ':'
        ((natDigits seed ++ [':'] ++ natDigits data.length ++ [':']) ++ body) =
        some (natDigits seed, natDigits data.length, body) := by
      have h1 : (natDigits seed ++ [':'] ++ natDigits data.length ++ [':']) ++ body =
          natDigits seed ++ (':' :: (natDigits data.length ++ (':' :: body))) := by
        simp
      rw [h1, split2At, splitOnceAt_append _ _ (colon_not_mem_natDigits seed)]
      simp only [Option.some_bind]
      rw [splitOnceAt_append _ _ (colon_not_mem_natDigits data.length)]
      rfl
    rw [symDecrypt, hsp]
    simp only [pyInt_natDigits, hdec, Bind.bind, Except.bind]
    have hend := pyEndsWith_append data endMarker
    have hlen : ((data.length : Nat) : Int) + ((endMarker.length : Nat) : Int) =
        (((data ++ endMarker).length : Nat) : Int) := by
      push_cast [List.length_append]
      ring
    rw [if_pos ⟨by rw [hend], hlen⟩, pyRemoveSuffix_append]
    rfl

/-- Witness for C4: a concrete AES stand-in, hashed key, seed, salt and plaintext;
the encryption is evaluated and decryption returns the plaintext. -/
theorem c4_witness :
    symDecrypt aesConstBlock hkConst
      ((symEncrypt aesConstBlock hkConst 1234 "hello".data 12345).toOption.getD [])
      12345 = .ok "hello".data :=
  c4_symmetric_roundtrip aesConstBlock hkConst 1234 12345 "hello".data (by decide) _
    (by decide)

/-- A salted secure-message packet whose salt fails the watermark or the 30-second
window leaves the state untouched: both asserts precede every mutation. -/
theorem secureMsgStep_reject (st : SocketState) (now : Rat) (client : List Char)
    (cl : ClientState) (msgData eventValue : List Char) (s : Int)
    (hpi : pyInt (pyTakeLast msgData 15) = .ok s)
    (hrej : mkRat s 100 ≤ st.lastTimestamp ∨ now + 30 ≤ mkRat s 100) :
    secureMsgStep st now client cl msgData eventValue = (st, []) := by
  simp only [secureMsgStep, hpi]
  rcases hrej with h | h
  · rw [if_pos (not_lt.mpr h)]
  · by_cases h1 : st.lastTimestamp < mkRat s 100
    · rw [if_neg (not_not_intro h1), if_pos (not_lt.mpr h)]
    · rw [if_pos h1]

/-- Same for the `_safe_connect` handshake branch. -/
theorem safeConnectStep_reject (mkEnc : Int → EncObj) (isTw : Bool)
    (st : SocketState) (now : Rat) (client : List Char)
    (username : Option (List Char)) (msgData : List Char) (s : Int)
    (hpi : pyInt (pyTakeLast msgData 15) = .ok s)
    (hrej : mkRat s 100 ≤ st.lastTimestamp ∨ now + 30 ≤ mkRat s 100) :
    safeConnectStep mkEnc isTw st now client username msgData = (st, []) := by
  cases hsec : st.security with
  | none => simp [safeConnectStep, hsec]
  | some dk =>
    simp only [safeConnectStep, hsec, hpi]
    rcases hrej with h | h
    · rw [if_pos (not_lt.mpr h)]
    · by_cases h1 : st.lastTimestamp < mkRat s 100
      · rw [if_neg (not_not_intro h1), if_pos (not_lt.mpr h)]
      · rw [if_pos h1]

theorem newUserStep_lastTimestamp (mkEnc : Int → EncObj) (isTw : Bool)
    (st : SocketState) (client : List Char) (username : Option (List Char))
    (key : Option Int) :
    (newUserStep mkEnc isTw st client username key).1.lastTimestamp =
      st.lastTimestamp := by
  simp [newUserStep]

theorem nonSecureMsgStep_lastTimestamp (st : SocketState) (client : List Char)
    (cl : ClientState) (msgData eventValue : List Char) :
    (nonSecureMsgStep st client cl msgData eventValue).1.lastTimestamp =
      st.lastTimestamp := by
  simp only [nonSecureMsgStep]
  split
  · rfl
  · by_cases hm : '-' ∈ eventValue
    · simp [hm]
    · simp only [hm, if_false]
      split
      · rfl
      · rfl

theorem secureMsgStep_lastTimestamp (st : SocketState) (now : Rat)
    (client : List Char) (cl : ClientState) (msgData eventValue : List Char) :
    st.lastTimestamp ≤
      (secureMsgStep st now client cl msgData eventValue).1.lastTimestamp := by
  simp only [secureMsgStep]
  split
  · exact le_refl _
  · rename_i s heq
    by_cases h1 : st.lastTimestamp < mkRat s 100
    · rw [if_neg (not_not_intro h1)]
      by_cases h2 : mkRat s 100 < now + 30
      · rw [if_neg (not_not_intro h2)]
        split
        · exact le_refl _
        · split
          · simpa using le_of_lt h1
          · split
            · simpa using le_of_lt h1
            · by_cases hm : '-' ∈ eventValue
              · simp only [hm, if_true]
                simpa using le_of_lt h1
              · simp only [hm, if_false]
                simpa using le_of_lt h1
      · rw [if_pos h2]
    · rw [if_pos h1]

theorem safeConnectStep_lastTimestamp (mkEnc : Int → EncObj) (isTw : Bool)
    (st : SocketState) (now : Rat) (client : List Char)
    (username : Option (List Char)) (msgData : List Char) :
    st.lastTimestamp ≤
      (safeConnectStep mkEnc isTw st now client username msgData).1.lastTimestamp := by
  cases hsec : st.security with
  | none => simp [safeConnectStep, hsec]
  | some dk =>
    simp only [safeConnectStep, hsec]
    split
    · exact le_refl _
    · rename_i s heq
      by_cases h1 : st.lastTimestamp < mkRat s 100
      · rw [if_neg (not_not_intro h1)]
        by_cases h2 : mkRat s 100 < now + 30
        · rw [if_neg (not_not_intro h2)]
          split
          · simpa using le_of_lt h1
          · split
            · simpa using le_of_lt h1
            · split
              · rw [newUserStep_lastTimestamp]
                simpa using le_of_lt h1
              · simpa using le_of_lt h1
        · rw [if_pos h2]
      · rw [if_pos h1]

theorem secureMsgStep_dichotomy (st : SocketState) (now : Rat) (client : List Char)
    (cl : ClientState) (msgData eventValue : List Char) (s : Int)
    (hpi : pyInt (pyTakeLast msgData 15) = .ok s) :
    (secureMsgStep st now client cl msgData eventValue).1.lastTimestamp = mkRat s 100 ∨
      secureMsgStep st now client cl msgData eventValue = (st, []) := by
  simp only [secureMsgStep, hpi]
  by_cases h1 : st.lastTimestamp < mkRat s 100
  · rw [if_neg (not_not_intro h1)]
    by_cases h2 : mkRat s 100 < now + 30
    · rw [if_neg (not_not_intro h2)]
      split
      · exact Or.inr rfl
      · split
        · exact Or.inl (by simp)
        · split
          · exact Or.inl (by simp)
          · by_cases hm : '-' ∈ eventValue
            · simp only [hm, if_true]
              exact Or.inl (by simp)
            · simp only [hm, if_false]
              exact Or.inl (by simp)
    · rw [if_pos h2]
      exact Or.inr rfl
  · rw [if_pos h1]
    exact Or.inr rfl

theorem safeConnectStep_dichotomy (mkEnc : Int → EncObj) (isTw : Bool)
    (st : SocketState) (now : Rat) (client : List Char)
    (username : Option (List Char)) (msgData : List Char) (s : Int)
    (hpi : pyInt (pyTakeLast msgData 15) = .ok s) :
    (safeConnectStep mkEnc isTw st now client username msgData).1.lastTimestamp =
        mkRat s 100 ∨
      safeConnectStep mkEnc isTw st now client username msgData = (st, []) := by
  cases hsec : st.security with
  | none => exact Or.inr (by simp [safeConnectStep, hsec])
  | some dk =>
    simp only [safeConnectStep, hsec, hpi]
    by_cases h1 : st.lastTimestamp < mkRat s 100
    · rw [if_neg (not_not_intro h1)]
      by_cases h2 : mkRat s 100 < now + 30
      · rw [if_neg (not_not_intro h2)]
        split
        · exact Or.inl (by simp)
        · split
          · exact Or.inl (by simp)
          · split
            · rw [newUserStep_lastTimestamp]
              exact Or.inl (by simp)
            · exact Or.inl (by simp)
      · rw [if_pos h2]
        exact Or.inr rfl
    · rw [if_pos h1]
      exact Or.inr rfl

/-- The combined salted-packet fact about one `on_packet` step: a packet that
reaches a salt check either advances the watermark to exactly its salt, or leaves
the state untouched and emits nothing; and when its salt fails the watermark or the
30-second window it is always the latter. -/
theorem onPacket_salted_main (mkEnc : Int → EncObj) (isTw : Bool)
    (st : SocketState) (now : Rat) (eventType eventName eventValue : List Char)
    (username : Option (List Char)) (s : Int)
    (hs : saltedBranchSalt st eventType eventName eventValue = some s) :
    (((mkRat s 100 ≤ st.lastTimestamp ∨ now + 30 ≤ mkRat s 100) →
        onPacket mkEnc isTw st now eventType eventName eventValue username = (st, [])) ∧
      ((onPacket mkEnc isTw st now eventType eventName eventValue username).1.lastTimestamp
          = mkRat s 100 ∨
        onPacket mkEnc isTw st now eventType eventName eventValue username = (st, []))) := by
  simp only [saltedBranchSalt] at hs
  simp only [onPacket]
  split at hs
  · exact absurd hs (by simp)
  · rename_i hcond
    rw [if_neg hcond]
    split at hs
    · exact absurd hs (by simp)
    · rename_i v0 vs hval
      rw [hval] at hs
      simp only [hval]
      split at hs
      · exact absurd hs (by simp)
      · rename_i mt hmt
        split at hs
        · exact absurd hs (by simp)
        · rename_i h0
          rw [if_neg h0]
          split at hs
          · exact absurd hs (by simp)
          · rename_i fst tl htl
            split at hs
            · exact absurd hs (by simp)
            · rename_i dec28 hdec
              cases hcl : dictGet st.clients (List.take 5 tl) with
              | some cl =>
                simp only [hcl] at hs ⊢
                by_cases hbA : ¬("_connect".data.isPrefixOf dec28 = true ∨
                    "_safe_connect:".data.isPrefixOf dec28 = true) ∧ cl.secure = false
                · exfalso
                  have hB : "_safe_connect:".data.isPrefixOf dec28 = false := by
                    cases hx : "_safe_connect:".data.isPrefixOf dec28
                    · rfl
                    · exact absurd (Or.inr hx) hbA.1
                  rw [if_neg] at hs
                  · exact absurd hs (by simp)
                  · simp [hB, hbA.2]
                · rw [if_neg hbA]
                  by_cases hbB : ¬("_connect".data.isPrefixOf dec28 = true ∨
                      "_safe_connect:".data.isPrefixOf dec28 = true) ∧ cl.secure = true
                  · rw [if_pos hbB]
                    have hA : "_connect".data.isPrefixOf dec28 = false := by
                      cases hx : "_connect".data.isPrefixOf dec28
                      · rfl
                      · exact absurd (Or.inl hx) hbB.1
                    have hB : "_safe_connect:".data.isPrefixOf dec28 = false := by
                      cases hx : "_safe_connect:".data.isPrefixOf dec28
                      · rfl
                      · exact absurd (Or.inr hx) hbB.1
                    rw [if_pos (by simp [hA, hB, hbB.2])] at hs
                    have hpi : pyInt
                        (pyTakeLast ((beforeFirstDot (v0 :: vs)).drop 1) 15) = .ok s := by
                      revert hs
                      split
                      · intro h; exact absurd h (by simp)
                      · intro h
                        rename_i hx
                        rw [hx]
                        simpa using h
                    exact ⟨fun hrej => secureMsgStep_reject _ _ _ _ _ _ _ hpi hrej,
                      secureMsgStep_dichotomy _ _ _ _ _ _ _ hpi⟩
                  · rw [if_neg hbB]
                    have hconn : "_connect".data.isPrefixOf dec28 = true ∨
                        "_safe_connect:".data.isPrefixOf dec28 = true := by
                      by_contra hnc
                      cases hsec : cl.secure
                      · exact hbA ⟨hnc, hsec⟩
                      · exact hbB ⟨hnc, hsec⟩
                    by_cases hsafe : "_safe_connect:".data.isPrefixOf dec28 = true
                    · rw [if_pos hsafe]
                      have hsec : st.security.isSome = true := by
                        by_contra hns
                        have : st.security.isSome = false := by
                          cases hx : st.security.isSome
                          · rfl
                          · exact absurd hx hns
                        rw [if_neg] at hs
                        · exact absurd hs (by simp)
                        · simp [hsafe, this]
                      rw [if_pos (by simp [hsafe, hsec])] at hs
                      have hpi : pyInt
                          (pyTakeLast ((beforeFirstDot (v0 :: vs)).drop 1) 15) = .ok s := by
                        revert hs
                        split
                        · intro h; exact absurd h (by simp)
                        · intro h
                          rename_i hx
                          rw [hx]
                          simpa using h
                      exact ⟨fun hrej => safeConnectStep_reject _ _ _ _ _ _ _ _ hpi hrej,
                        safeConnectStep_dichotomy _ _ _ _ _ _ _ _ hpi⟩
                    · exfalso
                      have hB : "_safe_connect:".data.isPrefixOf dec28 = false := by
                        cases hx : "_safe_connect:".data.isPrefixOf dec28
                        · rfl
                        · exact absurd hx hsafe
                      rw [if_neg] at hs
                      · exact absurd hs (by simp)
                      · rcases hconn with hA | hB'
                        · simp [hA, hB]
                        · exact absurd hB' (by simp [hB])
              | none =>
                simp only [hcl] at hs ⊢
                by_cases hsafe : "_safe_connect:".data.isPrefixOf dec28 = true
                · rw [if_pos hsafe]
                  have hsec : st.security.isSome = true := by
                    by_contra hns
                    have : st.security.isSome = false := by
                      cases hx : st.security.isSome
                      · rfl
                      · exact absurd hx hns
                    rw [if_neg] at hs
                    · exact absurd hs (by simp)
                    · simp [hsafe, this]
                  rw [if_pos (by simp [hsafe, hsec])] at hs
                  have hpi : pyInt
                      (pyTakeLast ((beforeFirstDot (v0 :: vs)).drop 1) 15) = .ok s := by
                    revert hs
                    split
                    · intro h; exact absurd h (by simp)
                    · intro h
                      rename_i hx
                      rw [hx]
                      simpa using h
                  exact ⟨fun hrej => safeConnectStep_reject _ _ _ _ _ _ _ _ hpi hrej,
                    safeConnectStep_dichotomy _ _ _ _ _ _ _ _ hpi⟩
                · exfalso
                  have hB : "_safe_connect:".data.isPrefixOf dec28 = false := by
                    cases hx : "_safe_connect:".data.isPrefixOf dec28
                    · rfl
                    · exact absurd hx hsafe
                  rw [if_neg] at hs
                  · exact absurd hs (by simp)
                  · simp [hB]

/-- `on_packet` never decreases the salt watermark, whatever the packet. -/
theorem onPacket_lastTimestamp_mono (mkEnc : Int → EncObj) (isTw : Bool)
    (st : SocketState) (now : Rat) (a b c : List Char) (u : Option (List Char)) :
    st.lastTimestamp ≤ (onPacket mkEnc isTw st now a b c u).1.lastTimestamp := by
  simp only [onPacket]
  split
  · exact le_refl _
  · split
    · exact le_refl _
    · split
      · exact le_refl _
      · split
        · split
          · exact le_refl _
          · simp
        · split
          · exact le_refl _
          · split
            · exact le_refl _
            · split
              · split
                · rw [nonSecureMsgStep_lastTimestamp]
                · split
                  · exact secureMsgStep_lastTimestamp _ _ _ _ _ _
                  · split
                    · exact safeConnectStep_lastTimestamp _ _ _ _ _ _ _
                    · rw [newUserStep_lastTimestamp]
              · split
                · exact safeConnectStep_lastTimestamp _ _ _ _ _ _ _
                · rw [newUserStep_lastTimestamp]

/-- The watermark is monotone along any packet trace. -/
theorem runPackets_lastTimestamp_mono (mkEnc : Int → EncObj) (isTw : Bool) :
    ∀ (trace : List StepInput) (st : SocketState),
      st.lastTimestamp ≤ (runPackets mkEnc isTw st trace).lastTimestamp := by
  intro trace
  induction trace with
  | nil => intro st; exact le_refl _
  | cons p ps ih =>
    intro st
    exact le_trans (onPacket_lastTimestamp_mono mkEnc isTw st p.now p.eventType
      p.eventName p.eventValue p.username) (ih _)

/-- C5: the salt watermark invariant.  If a `CloudSocket` accepts a salted packet
carrying salt `s` (it reaches a salt check, and it takes effect — the step is not a
no-op), then after any further sequence of inbound packets, every salted packet
whose salt is at most `s`, or whose salt reaches past the current wall clock plus
30 seconds, is dropped with no state change and no emitted event. -/
theorem c5_salt_watermark (mkEnc : Int → EncObj) (isTw : Bool)
    (st0 : SocketState) (p0 : StepInput) (s : Int)
    (hsalt0 : saltedBranchSalt st0 p0.eventType p0.eventName p0.eventValue = some s)
    (haccepted : onPacket mkEnc isTw st0 p0.now p0.eventType p0.eventName
      p0.eventValue p0.username ≠ (st0, []))
    (trace : List StepInput) (p : StepInput) (s' : Int)
    (hsalt' : saltedBranchSalt
      (runPackets mkEnc isTw (onPacket mkEnc isTw st0 p0.now p0.eventType p0.eventName
        p0.eventValue p0.username).1 trace)
      p.eventType p.eventName p.eventValue = some s')
    (hrej : s' ≤ s ∨ p.now + 30 ≤ mkRat s' 100) :
    onPacket mkEnc isTw
      (runPackets mkEnc isTw (onPacket mkEnc isTw st0 p0.now p0.eventType p0.eventName
        p0.eventValue p0.username).1 trace)
      p.now p.eventType p.eventName p.eventValue p.username =
      (runPackets mkEnc isTw (onPacket mkEnc isTw st0 p0.now p0.eventType p0.eventName
        p0.eventValue p0.username).1 trace, []) := by
  have hdi := (onPacket_salted_main mkEnc isTw st0 p0.now p0.eventType p0.eventName
    p0.eventValue p0.username s hsalt0).2
  have hwm0 : (onPacket mkEnc isTw st0 p0.now p0.eventType p0.eventName p0.eventValue
      p0.username).1.lastTimestamp = mkRat s 100 := by
    rcases hdi with h | h
    · exact h
    · exact absurd h haccepted
  have hwmN : mkRat s 100 ≤
      (runPackets mkEnc isTw (onPacket mkEnc isTw st0 p0.now p0.eventType p0.eventName
        p0.eventValue p0.username).1 trace).lastTimestamp := by
    rw [← hwm0]
    exact runPackets_lastTimestamp_mono mkEnc isTw trace _
  refine (onPacket_salted_main mkEnc isTw _ p.now p.eventType p.eventName
    p.eventValue p.username s' hsalt').1 ?_
  rcases hrej with h | h
  · left
    refine le_trans ?_ hwmN
    rw [Rat.mkRat_eq_divInt, Rat.mkRat_eq_divInt, Rat.divInt_eq_div, Rat.divInt_eq_div]
    have hc : (s' : Rat) ≤ (s : Rat) := by exact_mod_cast h
    push_cast
    linarith
  · right
    exact h

/-- Witness for C5: a secure client accepts a packet with salt `10^14`; replaying
the very same packet afterwards (same salt, hence salt ≤ the accepted one) is
dropped with no state change. -/
theorem c5_witness :
    onPacket (fun _ => encObjId) false
      (runPackets (fun _ => encObjId) false
        (onPacket (fun _ => encObjId) false c5St0 c5Packet.now c5Packet.eventType
          c5Packet.eventName c5Packet.eventValue c5Packet.username).1 [])
      c5Packet.now c5Packet.eventType c5Packet.eventName c5Packet.eventValue
      c5Packet.username =
      (runPackets (fun _ => encObjId) false
        (onPacket (fun _ => encObjId) false c5St0 c5Packet.now c5Packet.eventType
          c5Packet.eventName c5Packet.eventValue c5Packet.username).1 [], []) :=
  c5_salt_watermark (fun _ => encObjId) false c5St0 c5Packet 100000000000000
    (by decide)
    (fun h => absurd (congrArg (fun r => r.1.receivedAny) h) (by decide))
    [] c5Packet 100000000000000
    (by decide)
    (Or.inl (by decide))

/-- C10: an inbound `FROM_CLIENT` packet of type 1 or 2 whose 5-digit client id is
unknown, and whose decoded payload starts with neither `_connect` nor
`_safe_connect:`, creates a fresh insecure client entry, appends it to
`new_clients` (announcing it to `accept`), sets the accept event — and discards the
packet's payload: the new entry has an empty buffer and an empty message queue, and
only `new_user` is emitted. -/
theorem c10_unknown_client_creates_insecure (mkEnc : Int → EncObj) (isTw : Bool)
    (st : SocketState) (now : Rat) (eventValue : List Char)
    (username : Option (List Char)) (v0 : Char) (vs fst tl dec28 : List Char)
    (hval : eventValue.filter (· ≠ '-') = v0 :: vs)
    (hmt : pyInt [v0] = .ok 1 ∨ pyInt [v0] = .ok 2)
    (htl : splitOnceAt '.' (v0 :: vs) = some (fst, tl))
    (hlen : (List.take 5 tl).length = 5)
    (hdec : cloudDecode (((beforeFirstDot (v0 :: vs)).drop 1).take 28) = .ok dec28)
    (hnc : "_connect".data.isPrefixOf dec28 = false)
    (hns : "_safe_connect:".data.isPrefixOf dec28 = false)
    (hcl : dictGet st.clients (List.take 5 tl) = none) :
    onPacket mkEnc isTw st now "set".data "FROM_CLIENT".data eventValue username =
      ({ st with
          clients := dictSet st.clients (List.take 5 tl)
            { secure := false
              encrypter := none
              currentMsg := ⟨[], false⟩
              newMsgs := []
              received := false
              username := username
              securityStr := none
              isTurbowarp := isTw }
          newClients := st.newClients ++ [(List.take 5 tl, username)]
          accepted := true
          anyUpdate := true },
        [BusEvent.newUser (List.take 5 tl)]) := by
  have hset : ("set".data = "set".data ∧ "FROM_CLIENT".data = "FROM_CLIENT".data) :=
    ⟨rfl, rfl⟩
  simp only [onPacket, if_neg (not_not_intro hset), hval]
  rcases hmt with hmt | hmt <;>
    simp only [hmt] <;>
    rw [if_neg (by norm_num)] <;>
    simp only [htl, hdec, hcl, hns, Bool.false_eq_true, if_false, newUserStep,
      Option.map_none', Option.isSome_none, Bool.false_eq_true, if_false] <;>
    rfl

/-- Witness for C10: a type-1 packet `12345.54321` (payload digits `2345`, client
id `54321`) against an empty client table. -/
theorem c10_witness :
    onPacket (fun _ => encObjId) false c10St0 0 "set".data "FROM_CLIENT".data
      "12345.54321".data none =
      ({ c10St0 with
          clients := dictSet c10St0.clients (List.take 5 "54321".data)
            { secure := false
              encrypter := none
              currentMsg := ⟨[], false⟩
              newMsgs := []
              received := false
              username := none
              securityStr := none
              isTurbowarp := false }
          newClients := c10St0.newClients ++ [(List.take 5 "54321".data, none)]
          accepted := true
          anyUpdate := true },
        [BusEvent.newUser (List.take 5 "54321".data)]) :=
  c10_unknown_client_creates_insecure (fun _ => encObjId) false c10St0 0
    "12345.54321".data none '1' "2345.54321".data "12345".data "54321".data
    "wS".data rfl (Or.inl (by decide)) (by decide) (by decide) (by decide)
    (by decide) (by decide) rfl

/-- C1 (the code as written): `send_to_client` formats every cloud write as
`f"...{packet}.{client_id}{nonce}{idx}"` and converts it with `int(...)`; the
literal `.` makes `int` raise `ValueError` before any `set_var` call, on the
non-secure path and on the secure path alike.  Evaluated here at the concrete
failing input `data = "Hi"` for an insecure and for a secure client (packet size
`AUTO`, nonce 123, final variable 2): no write list is produced, the call
errors. -/
theorem c1_sendToClient_valueError :
    sendToClient [("12345".data, insecureTestClient)] "12345".data "Hi".data
        .auto (fun _ => 123) 2 (fun _ => 0) = .error () ∧
    sendToClient [("12345".data, secureTestClient)] "12345".data "Hi".data
        .auto (fun _ => 123) 2 (fun _ => 0) = .error () := by
  constructor <;> decide

/-! ## C6–C9: the request pipeline -/

/-- **C6** (refuted as stated — code_bug).  For the received message `"a; b; c"`
with three registered non-thread handlers, the handlers do execute sequentially
in the order a, b, c — but no handler return value is ever sent back:
`dispatch_request` inspects the signature of the `SpecificRequestHandler`
*instance*, `(*args, **kwargs) -> 'Any'`, whose PEP 563 return annotation is the
non-callable string `'Any'`; applying it raises `TypeError` on every
sub-request, `response_text` stays unbound, an `error_in_request` event is
emitted for each of the three, the final `send_response(response_text)` raises
`NameError`, and the reply is the generic `"Something went wrong."` instead of
c's return value. -/
theorem c6_chain_order_but_generic_error :
    processRequest Option.none reqsABC (fun _ _ => Except.error PyExc.other)
      "a; b; c".data =
      ({ executions := [("a".data, [], []), ("b".data, [], []), ("c".data, [], [])]
         sends := []
         events := ["error_in_request".data, "error_in_request".data,
           "error_in_request".data]
         spawned := [] },
        some "Something went wrong.".data) := by
  rfl

/-- `" ".join` of a single string is that string. -/
theorem joinSpace_singleton (t : List Char) : joinSpace [t] = t := by
  simp [joinSpace, List.intercalate]

/-- **C7.**  When the handler raises `ErrorMessage(text)` while the sub-request
is the one that answers (`response = true`), the `except ErrorMessage` arm binds
`response_text` to `" ".join(e.args) = text` — before the return converter could
ever run — and `send_response` sends exactly that text; no `error_in_request`
event is emitted and nothing escapes `execute_request`. -/
theorem c7_error_message_response (eh : Option (PyExc → EHResult)) (fuel : Nat)
    (name : List Char) (args : List PyObj) (kwargs : List (PyObj × PyObj))
    (ann : PyAnn) (srh : SpecificRequestHandler) (retried : Bool) (out : ReqOutput)
    (t : List Char)
    (h : srh.function.impl args kwargs = Except.error (PyExc.errorMessage [t])) :
    executeRequest eh (fuel + 1) name args kwargs true ann srh retried out =
      ({ out with executions := out.executions ++ [(name, args, kwargs)]
                  sends := out.sends ++ [t] }, Option.none) := by
  have hb : (do
      let v ← (Except.error (PyExc.errorMessage [t]) : Except PyExc PyObj)
      let rv ← applyAnn ann v
      pure (pyStr rv) : Except PyExc (List Char)) =
      Except.error (PyExc.errorMessage [t]) := rfl
  simp only [executeRequest, h]
  rw [hb]
  simp [joinSpace, List.intercalate]

/-- Concrete instance of C7: a handler raising `ErrorMessage("nope")` answers
exactly `"nope"` and emits no event. -/
theorem c7_witness :
    executeRequest Option.none 1 "e".data [] [] true (PyAnn.strAnn "Any".data)
      handlerNope false { executions := [], sends := [], events := [], spawned := [] } =
      ({ executions := [("e".data, [], [])], sends := ["nope".data], events := [],
         spawned := [] }, Option.none) :=
  c7_error_message_response Option.none 0 "e".data [] [] (PyAnn.strAnn "Any".data)
    handlerNope false { executions := [], sends := [], events := [], spawned := [] }
    "nope".data rfl

/-- The positional loop of `type_casting` leaves `args` unchanged when every
coercion it attempts raises `TypeError` (and no keyword collides). -/
theorem tcLoop1_typeError_skips (params : List SigParam) (args : List PyObj)
    (idx : Nat) (h : tcAllSkipB params args idx = true) :
    tcLoop1 [] params args idx = Except.ok args := by
  induction params generalizing idx with
  | nil => rfl
  | cons p ps ih =>
    simp only [tcAllSkipB, Bool.and_eq_true, Bool.or_eq_true, beq_iff_eq,
      decide_eq_true_eq] at h
    obtain ⟨⟨hk, hskip⟩, htail⟩ := h
    unfold tcLoop1
    by_cases hlen : idx ≥ args.length
    · simp [hlen]
    · have hskip2 : (match applyAnn p.ann (args.getD idx .none) with
          | .error .typeError => true
          | _ => false) = true := by
        cases hskip with
        | inl hle => omega
        | inr hm => exact hm
      have hann : applyAnn p.ann (args.getD idx .none) =
          Except.error PyExc.typeError := by
        revert hskip2
        match applyAnn p.ann (args.getD idx .none) with
        | .ok v => intro hc; cases hc
        | .error .typeError => intro _; rfl
        | .error .valueError => intro hc; cases hc
        | .error .keyError => intro hc; cases hc
        | .error .indexError => intro hc; cases hc
        | .error .assertionError => intro hc; cases hc
        | .error .nameError => intro hc; cases hc
        | .error .permissionError => intro hc; cases hc
        | .error .syntaxError => intro hc; cases hc
        | .error (.errorMessage m) => intro hc; cases hc
        | .error .other => intro hc; cases hc
      simp only [List.getD_eq_getElem?_getD] at hann
      cases hk with
      | inl hps => simp [hlen, hps, hann, ih (idx + 1) htail]
      | inr hkwps => simp [hlen, hkwps, hann, ih (idx + 1) htail]

/-- **C8** (amended).  In `type_casting`, a parameter coercion whose annotation
call raises `TypeError` is skipped silently — `except TypeError: pass` — and the
original argument value passes through unchanged: for a purely positional
signature every one of whose attempted coercions raises `TypeError`, and no
keyword arguments, `type_casting` returns the argument list untouched.  (The
original claim said "raises an exception"; only `TypeError` is caught — see the
`ValueError` counterexample — and in real dispatch the inspected wrapper
signature carries no parameter annotations at all, so handler annotations are
never invoked.) -/
theorem c8_typeError_coercions_skipped (sig : PySignature) (args : List PyObj)
    (h : tcAllSkipB sig.params args 0 = true) :
    typeCasting sig args [] = Except.ok (args, [], sig.retAnn) := by
  unfold typeCasting
  rw [tcLoop1_typeError_skips sig.params args 0 h]
  rfl

/-- Concrete instance of the amended C8: an always-`TypeError` annotation on the
single parameter leaves the argument `"abc"` untouched. -/
theorem c8_witness :
    tcAllSkipB sigTyErrParam.params [PyObj.str "abc".data] 0 = true ∧
    typeCasting sigTyErrParam [PyObj.str "abc".data] [] =
      Except.ok ([PyObj.str "abc".data], [], PyAnn.empty) :=
  ⟨rfl, c8_typeError_coercions_skipped sigTyErrParam [PyObj.str "abc".data] rfl⟩

/-- **C8 counterexample.**  A coercion failure other than `TypeError` is *not*
skipped: with the single parameter annotated `int` and the argument `"abc"`,
`int("abc")` raises `ValueError`, which escapes `type_casting` (the `except`
catches only `TypeError`), so the dispatch does not continue without error —
refuting "if invoking the annotation ... raises an exception, the coercion is
skipped silently". -/
theorem c8_valueError_counterexample :
    typeCasting sigIntParam [PyObj.str "abc".data] [] =
      Except.error PyExc.valueError := by
  rfl

/-- **C9** (refuted as stated — code_bug).  The direct form of
`RequestHandler.request` records all four flags faithfully, but the
decorator-factory form (func omitted) returns
`lambda x: self.request(x, name=..., auto_convert=..., allow_python_syntax=...)`,
which does not forward `thread`: a registration made through it stores
`thread = False` even though `thread = True` was supplied. -/
theorem c9_factory_drops_thread :
    ((request [] (some pyFuncF) Option.none true false true).1.map
      (fun p => (p.1, p.2.autoConvert, p.2.allowPythonSyntax, p.2.thread)) =
      [("f".data, true, false, true)]) ∧
    ∀ g, (request [] Option.none Option.none true false true).2 = some g →
      (g pyFuncF []).map
        (fun p => (p.1, p.2.autoConvert, p.2.allowPythonSyntax, p.2.thread)) =
        [("f".data, true, false, false)] := by
  refine ⟨rfl, fun g hg => ?_⟩
  have hg2 : some (fun (x : PyFunc)
      (reqs2 : List (List Char × SpecificRequestHandler)) =>
      addRequest reqs2 x Option.none true false false) = some g := hg
  cases hg2
  rfl

/-- Concrete instance of C9 at the factory's returned decorator. -/
theorem c9_witness :
    ((request [] (some pyFuncF) Option.none true false true).1.map
      (fun p => (p.1, p.2.autoConvert, p.2.allowPythonSyntax, p.2.thread)) =
      [("f".data, true, false, true)]) ∧
    ((fun (x : PyFunc) (reqs2 : List (List Char × SpecificRequestHandler)) =>
        addRequest reqs2 x Option.none true false false) pyFuncF []).map
      (fun p => (p.1, p.2.autoConvert, p.2.allowPythonSyntax, p.2.thread)) =
      [("f".data, true, false, false)] :=
  ⟨c9_factory_drops_thread.1,
   c9_factory_drops_thread.2
     (fun x reqs2 => addRequest reqs2 x Option.none true false false) rfl⟩
